import Mathlib

/-!
Verification of the nvgpu-exporter telemetry core.

Shallow embedding of the decoding/collection core of the `nvgpu-exporter`
repository (Go), together with theorems settling the specification claims.

Modelling conventions:
* Go machine integers (`uint8`, `uint32`, `uint64`) are `Nat` with explicit
  `% 2^w` reductions where the source relies on wrap-around / masking;
  `int32` values are `Int`.
* Go strings are Lean `String` when they are produced from Go string
  literals / `fmt.Sprintf("%d", ...)`; byte buffers that are converted to
  Go strings by reinterpretation (`string(busId[:])`) are kept as byte
  lists (`List Nat`), since such Go strings are raw byte sequences.
* Fallible Go calls `(value, ret)` from NVML are modelled as the returned
  pair; `ret` is the NVML status code (`0` = `NVML_SUCCESS`).
* `float64` values produced by the codec are modelled by `GoFloat`:
  the `DOUBLE` branch of the codec reinterprets the 8 little-endian bytes
  as the IEEE-754 bit pattern (kept as the raw 64-bit pattern, since
  NaN/infinity have no rational value), while the integer branches record
  the exact integer that the Go code converts to `float64`.
  The bit-error-rate decoder's arithmetic (`float64(mantissa) *
  math.Pow10(-int(exponent))`) is modelled exactly over `ℚ`.
-/

namespace NvgpuExporter

/-! Section: NVML constants used by the sources

Values are the NVML enum values used through `github.com/NVIDIA/go-nvml`:
status codes (`nvmlReturn_t`), value-type tags (`nvmlValueType_t`),
link-feature state (`nvmlEnableState_t`) and the NVLink link bound.
The fabric-health constants are pinned by the repository's own metric help
strings (`fabric_health_summary`: 0=not_supported, 1=healthy, 2=unhealthy,
3=limited_capacity; `fabric_incorrect_configuration`: 0=not_supported,
1=none; `fabric_health`: flag value 1 is the "true/unhealthy" sentinel). -/

def NVML_SUCCESS : Nat := 0
def NVML_ERROR_NOT_SUPPORTED : Nat := 3
def NVML_ERROR_TIMEOUT : Nat := 10

def VALUE_TYPE_DOUBLE : Nat := 0
def VALUE_TYPE_UNSIGNED_INT : Nat := 1
def VALUE_TYPE_UNSIGNED_LONG : Nat := 2
def VALUE_TYPE_UNSIGNED_LONG_LONG : Nat := 3
def VALUE_TYPE_SIGNED_LONG_LONG : Nat := 4
def VALUE_TYPE_SIGNED_INT : Nat := 5

def FEATURE_ENABLED : Nat := 1
def NVLINK_MAX_LINKS : Nat := 18

def GPU_FABRIC_HEALTH_MASK_DEGRADED_BW_NOT_SUPPORTED : Nat := 0
def GPU_FABRIC_HEALTH_MASK_DEGRADED_BW_TRUE : Nat := 1
def GPU_FABRIC_HEALTH_MASK_DEGRADED_BW_FALSE : Nat := 2
def GPU_FABRIC_HEALTH_MASK_ROUTE_RECOVERY_NOT_SUPPORTED : Nat := 0
def GPU_FABRIC_HEALTH_MASK_ROUTE_RECOVERY_TRUE : Nat := 1
def GPU_FABRIC_HEALTH_MASK_ROUTE_UNHEALTHY_NOT_SUPPORTED : Nat := 0
def GPU_FABRIC_HEALTH_MASK_ROUTE_UNHEALTHY_TRUE : Nat := 1
def GPU_FABRIC_HEALTH_MASK_ACCESS_TIMEOUT_RECOVERY_NOT_SUPPORTED : Nat := 0
def GPU_FABRIC_HEALTH_MASK_ACCESS_TIMEOUT_RECOVERY_TRUE : Nat := 1
def GPU_FABRIC_HEALTH_MASK_INCORRECT_CONFIGURATION_NOT_SUPPORTED : Nat := 0
def GPU_FABRIC_HEALTH_MASK_INCORRECT_CONFIGURATION_NONE : Nat := 1

def GPU_FABRIC_HEALTH_SUMMARY_NOT_SUPPORTED : Nat := 0
def GPU_FABRIC_HEALTH_SUMMARY_HEALTHY : Nat := 1
def GPU_FABRIC_HEALTH_SUMMARY_UNHEALTHY : Nat := 2
def GPU_FABRIC_HEALTH_SUMMARY_LIMITED_CAPACITY : Nat := 3

/-! Section: FieldValue and the field-value codec (`nvlink.go`) -/

/-- Model of `nvml.FieldValue`: request identification (`FieldId`,
`ScopeId`), the per-request status (`NvmlReturn`), the value-type tag
(`ValueType`) and the 8-byte value buffer (`Value [8]byte`, each byte a
`uint8`). -/
structure FieldValue where
  fieldId : Nat := 0
  scopeId : Nat := 0
  nvmlReturn : Nat := 0
  valueType : Nat := 0
  value : Fin 8 → Nat := fun _ => 0

/-- Decode failure, per the source's `fmt.Errorf("unsupported field type
...")` paths.  `binary.Read` of 4 or 8 bytes from the fixed 8-byte buffer
cannot fail, so the unsupported-tag error is the only error. -/
inductive DecodeErr where
  | unsupportedType (tag : Nat)
  | unsupportedTypeForBER (tag : Nat)
deriving DecidableEq, Repr

/-- Little-endian `uint32` read of the first 4 bytes of the buffer
(`binary.Read(buf, binary.LittleEndian, &v)` with `v : uint32`). -/
def leU32 (b : Fin 8 → Nat) : Nat :=
  b ⟨0, by omega⟩ % 256 + 256 * (b ⟨1, by omega⟩ % 256) + 256 ^ 2 * (b ⟨2, by omega⟩ % 256) +
    256 ^ 3 * (b ⟨3, by omega⟩ % 256)

/-- Little-endian `uint64` read of the 8-byte buffer. -/
def leU64 (b : Fin 8 → Nat) : Nat :=
  b ⟨0, by omega⟩ % 256 + 256 * (b ⟨1, by omega⟩ % 256) + 256 ^ 2 * (b ⟨2, by omega⟩ % 256) +
    256 ^ 3 * (b ⟨3, by omega⟩ % 256) + 256 ^ 4 * (b ⟨4, by omega⟩ % 256) +
    256 ^ 5 * (b ⟨5, by omega⟩ % 256) + 256 ^ 6 * (b ⟨6, by omega⟩ % 256) +
    256 ^ 7 * (b ⟨7, by omega⟩ % 256)

/-- Two's-complement reinterpretation of a `uint32` bit pattern as the Go
`int32` read by `binary.Read` with `v : int32`. -/
def toSigned32 (n : Nat) : Int :=
  if n % 2 ^ 32 < 2 ^ 31 then (n % 2 ^ 32 : Int) else (n % 2 ^ 32 : Int) - 2 ^ 32

/-- Model of a Go `float64` produced by the codec (see the module
docstring): the raw IEEE-754 bit pattern from the `DOUBLE` branch, or the
exact integer that an integer branch converts to `float64`. -/
inductive GoFloat where
  | ofBits (bits : Nat)
  | ofInt (v : Int)
deriving DecidableEq, Repr

/-- Model of `fieldValueToUint64` (`nvlink.go`): extracts a `uint64` from an
`nvml.FieldValue`.  `VALUE_TYPE_UNSIGNED_INT` is read as a little-endian
`uint32`; `VALUE_TYPE_UNSIGNED_LONG` and `VALUE_TYPE_UNSIGNED_LONG_LONG`
as a little-endian `uint64`; any other tag yields the "unsupported field
type for BER" error. -/
def fieldValueToUint64 (fv : FieldValue) : Except DecodeErr Nat :=
  if fv.valueType = VALUE_TYPE_UNSIGNED_INT then .ok (leU32 fv.value)
  else if fv.valueType = VALUE_TYPE_UNSIGNED_LONG ∨
      fv.valueType = VALUE_TYPE_UNSIGNED_LONG_LONG then .ok (leU64 fv.value)
  else .error (.unsupportedTypeForBER fv.valueType)

/-- Model of `fieldValueToFloat64` (`nvlink.go`): decodes the 8-byte buffer as a
`float64` according to the value-type tag; unsupported tags yield an
error. -/
def fieldValueToFloat64 (fv : FieldValue) : Except DecodeErr GoFloat :=
  if fv.valueType = VALUE_TYPE_DOUBLE then .ok (.ofBits (leU64 fv.value))
  else if fv.valueType = VALUE_TYPE_UNSIGNED_INT then .ok (.ofInt (leU32 fv.value))
  else if fv.valueType = VALUE_TYPE_SIGNED_INT then .ok (.ofInt (toSigned32 (leU32 fv.value)))
  else if fv.valueType = VALUE_TYPE_UNSIGNED_LONG ∨
      fv.valueType = VALUE_TYPE_UNSIGNED_LONG_LONG then .ok (.ofInt (leU64 fv.value))
  else .error (.unsupportedType fv.valueType)

/-- Model of `decodeBER` (`nvlink.go`): extracts the raw value as `uint64`, splits
it into `exponent` (bits 0–7) and `mantissa` (bits 8–11) and computes
`mantissa × 10^(-exponent)`, with the explicit special case that both
sub-fields zero give exactly `0`.  The `float64` arithmetic is modelled
exactly over `ℚ`. -/
def decodeBER (fv : FieldValue) : Except DecodeErr ℚ :=
  match fieldValueToUint64 fv with
  | .error e => .error e
  | .ok rawValue =>
    let exponent := rawValue % 256
    let mantissa := rawValue / 256 % 16
    if exponent = 0 ∧ mantissa = 0 then .ok 0
    else .ok ((mantissa : ℚ) * 10 ^ (-(exponent : ℤ)))

/-- A `FieldValue` carrying the unsigned 64-bit raw BER encoding
`mantissa * 256 + exponent` in its little-endian buffer (bytes:
`exponent`, `mantissa`, 0, ...). -/
def mkBerFieldValue (mantissa exponent : Nat) : FieldValue :=
  { valueType := VALUE_TYPE_UNSIGNED_LONG_LONG
    value := fun i => if i.val = 0 then exponent % 256 else if i.val = 1 then mantissa % 16 else 0 }

instance {ε α : Type} [DecidableEq ε] [DecidableEq α] : DecidableEq (Except ε α) := fun
  | .ok a, .ok b => by
      cases h : decide (a = b) with
      | true => exact .isTrue (by simp_all)
      | false => exact .isFalse (by simp_all)
  | .ok _, .error _ => .isFalse (by simp)
  | .error _, .ok _ => .isFalse (by simp)
  | .error e, .error f => by
      cases h : decide (e = f) with
      | true => exact .isTrue (by simp_all)
      | false => exact .isFalse (by simp_all)

/-! Section: Fabric health decoding (`fabric_health.go`) -/

/-- Model of `flagToGauge` (`fabric_health.go`): `true` (healthy/false) ↦ 1.0,
`false` (unhealthy/true) ↦ 0.0. -/
def flagToGauge (b : Bool) : ℚ := if b then 1 else 0

/-- A 2-bit health-mask sub-field: `(healthMask >> off) & 0x3`. -/
def healthSubfield (mask off : Nat) : Nat := mask >>> off % 4

/-- The incorrect-configuration sub-field: `(healthMask >> 8) & 0x3FFF`. -/
def incorrectConfigSubfield (mask : Nat) : Nat := mask >>> 8 % 2 ^ 14

/-- The gauge value `collectFabricHealth` reports for one 2-bit health
sub-field at bit offset `off`: `flagToGauge(subfield != 1)`. -/
def healthFlagGauge (mask off : Nat) : ℚ :=
  flagToGauge (decide (healthSubfield mask off ≠ 1))

/-- Model of `calculateHealthSummary` (`fabric_health.go`): overall health summary
from the five decoded sub-fields.  0=not_supported, 1=healthy,
2=unhealthy, 3=limited_capacity. -/
def calculateHealthSummary
    (degradedBw routeRecovery routeUnhealthy accessTimeoutRecovery incorrectConfig : Nat) : Nat :=
  if degradedBw = GPU_FABRIC_HEALTH_MASK_DEGRADED_BW_NOT_SUPPORTED ∧
      routeRecovery = GPU_FABRIC_HEALTH_MASK_ROUTE_RECOVERY_NOT_SUPPORTED ∧
      routeUnhealthy = GPU_FABRIC_HEALTH_MASK_ROUTE_UNHEALTHY_NOT_SUPPORTED ∧
      accessTimeoutRecovery = GPU_FABRIC_HEALTH_MASK_ACCESS_TIMEOUT_RECOVERY_NOT_SUPPORTED ∧
      incorrectConfig = GPU_FABRIC_HEALTH_MASK_INCORRECT_CONFIGURATION_NOT_SUPPORTED then
    GPU_FABRIC_HEALTH_SUMMARY_NOT_SUPPORTED
  else if routeRecovery = GPU_FABRIC_HEALTH_MASK_ROUTE_RECOVERY_TRUE ∨
      routeUnhealthy = GPU_FABRIC_HEALTH_MASK_ROUTE_UNHEALTHY_TRUE ∨
      accessTimeoutRecovery = GPU_FABRIC_HEALTH_MASK_ACCESS_TIMEOUT_RECOVERY_TRUE ∨
      (incorrectConfig ≠ GPU_FABRIC_HEALTH_MASK_INCORRECT_CONFIGURATION_NOT_SUPPORTED ∧
        incorrectConfig ≠ GPU_FABRIC_HEALTH_MASK_INCORRECT_CONFIGURATION_NONE) then
    GPU_FABRIC_HEALTH_SUMMARY_UNHEALTHY
  else if degradedBw = GPU_FABRIC_HEALTH_MASK_DEGRADED_BW_TRUE then
    GPU_FABRIC_HEALTH_SUMMARY_LIMITED_CAPACITY
  else
    GPU_FABRIC_HEALTH_SUMMARY_HEALTHY

/-- Classification of a 2-bit flag sub-field in the spec's BitmaskDecoder
vocabulary: not-supported (sentinel), true, or false. -/
inductive FlagClass where
  | notSupported
  | isTrue
  | isFalse
deriving DecidableEq, Repr

/-- Spec-side classification of a 2-bit flag: the not-supported sentinel,
the true value, otherwise false. -/
def classifyFlag (v : Nat) : FlagClass :=
  if v = 0 then .notSupported else if v = 1 then .isTrue else .isFalse

/-- The health-summary priority cascade exactly as the spec words it
(NotSupported when every sub-field is not-supported; else Unhealthy when
any of the three route/timeout flags is true or the configuration code is
neither not-supported nor none; else LimitedCapacity when
degraded-bandwidth is true; else Healthy).  Second definition, written
from the spec's words, for comparison with `calculateHealthSummary`. -/
def healthSummaryCascadeSpec
    (degradedBw routeRecovery routeUnhealthy accessTimeoutRecovery incorrectConfig : Nat) : Nat :=
  if classifyFlag degradedBw = .notSupported ∧ classifyFlag routeRecovery = .notSupported ∧
      classifyFlag routeUnhealthy = .notSupported ∧
      classifyFlag accessTimeoutRecovery = .notSupported ∧
      incorrectConfig = GPU_FABRIC_HEALTH_MASK_INCORRECT_CONFIGURATION_NOT_SUPPORTED then
    GPU_FABRIC_HEALTH_SUMMARY_NOT_SUPPORTED
  else if classifyFlag routeRecovery = .isTrue ∨ classifyFlag routeUnhealthy = .isTrue ∨
      classifyFlag accessTimeoutRecovery = .isTrue ∨
      (incorrectConfig ≠ GPU_FABRIC_HEALTH_MASK_INCORRECT_CONFIGURATION_NOT_SUPPORTED ∧
        incorrectConfig ≠ GPU_FABRIC_HEALTH_MASK_INCORRECT_CONFIGURATION_NONE) then
    GPU_FABRIC_HEALTH_SUMMARY_UNHEALTHY
  else if classifyFlag degradedBw = .isTrue then
    GPU_FABRIC_HEALTH_SUMMARY_LIMITED_CAPACITY
  else
    GPU_FABRIC_HEALTH_SUMMARY_HEALTHY

/-! Section: Claim C10: `pciBusIdToString` -/

/-- The truncation test of `pciBusIdToString`: the byte is zero or
non-printable (`busId[i] == 0 || busId[i] < 32 || busId[i] > 126`). -/
def pciBadByte (b : Nat) : Prop := b = 0 ∨ b < 32 ∨ 126 < b

instance (b : Nat) : Decidable (pciBadByte b) := by
  unfold pciBadByte
  infer_instance

/-- Model of `pciBusIdToString` (`main.go`; also duplicated alongside the XID
collector): converts the 16-byte `BusIdLegacy` buffer (`[16]uint8`) to
the Go string of its leading bytes.  The Go string `string(busId[:])` is
a raw byte sequence, modelled as a byte list; the loop runs for
`i = 12, 13` (`i < len(busId) && i < 14`) and returns `str[:i]` at the
first zero/non-printable byte, otherwise `str[:13]`. -/
def pciBusIdToString (busId : Fin 16 → Nat) : List Nat :=
  let str := List.ofFn busId
  if pciBadByte (busId ⟨12, by omega⟩) then str.take 12
  else if pciBadByte (busId ⟨13, by omega⟩) then str.take 13
  else str.take 13

/-! Section: XID event collection (`startXidEventCollector`, `handleXidEvent`) -/

def nvmlEventTypeXidCriticalError : Nat := 8

/-- Key of the concurrent Xid-count map (`xidKey`). -/
structure XidKey where
  uuid : String
  xid : Nat
deriving DecidableEq

/-- Model of `nvml.EventData` as consumed by `handleXidEvent`: the event type
bitmask, the payload (the Xid code) and the originating device's query
results (`GetUUID`, `GetPciInfo().BusIdLegacy`, each with its status). -/
structure EventData where
  eventType : Nat
  eventData : Nat
  uuidRes : String × Nat
  pciRes : (Fin 16 → Nat) × Nat

/-- Log records the event loop can emit. -/
inductive XidLog where
  | waitError (code : Nat)
  | uuidError (code : Nat)
  | pciError (code : Nat)
  | xidDetected (uuid : String) (pciBusId : List Nat) (xid : Nat)
deriving DecidableEq

/-- State owned by the event collector: the `sync.Map` of per-(uuid, xid)
counts as an association list, and the log of exported-counter
(`xidErrors`) increments. -/
structure XidState where
  counts : List (XidKey × Nat)
  promIncs : List (String × List Nat × Nat)
deriving DecidableEq

/-- Model of `handleXidEvent`: resolve the device's UUID and PCI bus id (either
failure logs and returns), then `LoadOrStore`/`Store` the in-memory
count, increment the exported counter and log the fault. -/
def handleXidEvent (st : XidState) (event : EventData) : XidState × List XidLog :=
  if event.uuidRes.2 ≠ NVML_SUCCESS then (st, [.uuidError event.uuidRes.2])
  else if event.pciRes.2 ≠ NVML_SUCCESS then (st, [.pciError event.pciRes.2])
  else
    let uuid := event.uuidRes.1
    let pciBusId := pciBusIdToString event.pciRes.1
    let xid := event.eventData
    let key : XidKey := ⟨uuid, xid⟩
    let counts :=
      match st.counts.lookup key with
      | none => st.counts ++ [(key, 1)]
      | some old => st.counts.map fun kv => if kv.1 = key then (key, old + 1) else kv
    ({ counts := counts, promIncs := st.promIncs ++ [(uuid, pciBusId, xid)] },
      [.xidDetected uuid pciBusId xid])

/-- One iteration of the wait loop in `startXidEventCollector`, given the
result `(event, ret)` of `nvml.EventSetWait(eventSet, 5000)`: a timeout
re-enters the wait with no effect; any other non-success return is
logged and the loop continues; a qualifying event is handled by
`handleXidEvent`. -/
def xidLoopIteration (st : XidState) (event : EventData) (ret : Nat) : XidState × List XidLog :=
  if ret = NVML_ERROR_TIMEOUT then (st, [])
  else if ret ≠ NVML_SUCCESS then (st, [.waitError ret])
  else if event.eventType &&& nvmlEventTypeXidCriticalError ≠ 0 then handleXidEvent st event
  else (st, [])

/-- The event loop run over a finite prefix of the wait-result stream;
the Go loop has no break or return statement, so every branch simply
proceeds to the next wait. -/
def runXidLoop (st : XidState) : List (EventData × Nat) → XidState × List XidLog
  | [] => (st, [])
  | (event, ret) :: rest =>
    let step := xidLoopIteration st event ret
    let next := runXidLoop step.1 rest
    (next.1, step.2 ++ next.2)

/-! Section: CPU-affinity range formatting (topology collector,
`getCpuAffinityString` / `formatRange`) -/

/-- Value of `bits.UintSize`, the machine word width (64-bit platform). -/
def uintSize : Nat := 64

/-- Model of `formatRange`: `fmt.Sprintf("%d")` for a singleton, else
`fmt.Sprintf("%d-%d")`.  (`end` is a reserved word in Lean, hence `e`.) -/
def formatRange (start e : Nat) : String :=
  if start = e then Nat.repr start else Nat.repr start ++ "-" ++ Nat.repr e

/-- Model of `strings.Join` from the Go standard library: the elements of the
list separated by `sep`. -/
def stringsJoin (elems : List String) (sep : String) : String :=
  match elems with
  | [] => ""
  | first :: rest => rest.foldl (fun acc s => acc ++ sep ++ s) first

/-- The bit-scanning loop of `getCpuAffinityString`: for each mask word
(ascending index), for each bit (ascending), collect the cpu number
`idx*uintSize + bit` when the bit is set and below `numCPUs`. -/
def collectCpus (mask : List Nat) (numCPUs : Nat) : List Nat :=
  mask.enum.flatMap fun iw =>
    ((List.range uintSize).filter fun bit =>
        iw.2.testBit bit && decide (iw.1 * uintSize + bit < numCPUs)).map
      fun bit => iw.1 * uintSize + bit

/-- The range-merging loop of `getCpuAffinityString`: extend the current
run `[start, prev]` while the next cpu is consecutive, otherwise flush
`formatRange start prev`; the final run is flushed after the loop. -/
def mergeRanges : List Nat → Nat → Nat → List String → List String
  | [], start, prev, ranges => ranges ++ [formatRange start prev]
  | cpu :: rest, start, prev, ranges =>
    if cpu = prev + 1 then mergeRanges rest start cpu ranges
    else mergeRanges rest cpu cpu (ranges ++ [formatRange start prev])

/-- Model of `getCpuAffinityString`: `device.GetCpuAffinity(numCPUs)` is modelled
by its result, `none` for a non-success status; a failed call or an
empty mask yields `"unknown"`, as does a mask with no collected cpu;
otherwise the merged ranges joined with `","`. -/
def getCpuAffinityString (maskRes : Option (List Nat)) (numCPUs : Nat) : String :=
  match maskRes with
  | none => "unknown"
  | some mask =>
    if mask.length = 0 then "unknown"
    else
      match collectCpus mask numCPUs with
      | [] => "unknown"
      | c :: rest => stringsJoin (mergeRanges rest c c []) ","

/-- Spec-side maximal-run grouping: `runsFrom start prev l` lists the
`(start, end)` runs obtained by extending the current run
`[start, prev]` through `l`. -/
def runsFrom (start prev : Nat) : List Nat → List (Nat × Nat)
  | [] => [(start, prev)]
  | c :: rest =>
    if c = prev + 1 then runsFrom start c rest
    else (start, prev) :: runsFrom c c rest

/-- The integers covered by a list of closed ranges. -/
def joinRuns (runs : List (Nat × Nat)) : List Nat :=
  runs.flatMap fun r => List.range' r.1 (r.2 + 1 - r.1)

/-! Section: NVLink field groups and the device-wide request builder
(`nvlink.go`) -/

/-- Table `nvlinkErrorFields` (`nvlink.go`): `(fieldId, name)` descriptors of
the NVLink error counters, in source order. -/
def nvlinkErrorFields : List (Nat × String) :=
  [(206, "malformed_packet_errors"), (207, "buffer_overrun_errors"),
    (211, "local_link_integrity_errors"), (213, "recovery_successful_events"),
    (214, "recovery_failed_events"), (215, "recovery_events"),
    (219, "effective_errors"), (221, "symbol_errors")]

/-- Table `nvlinkBerFields`: the BER counters. -/
def nvlinkBerFields : List (Nat × String) :=
  [(220, "effective_ber"), (222, "symbol_ber")]

/-- Table `nvlinkFecFields`: the FEC history counters 0–15. -/
def nvlinkFecFields : List (Nat × String) :=
  [(235, "fec_errors_0"), (236, "fec_errors_1"), (237, "fec_errors_2"),
    (238, "fec_errors_3"), (239, "fec_errors_4"), (240, "fec_errors_5"),
    (241, "fec_errors_6"), (242, "fec_errors_7"), (243, "fec_errors_8"),
    (244, "fec_errors_9"), (245, "fec_errors_10"), (246, "fec_errors_11"),
    (247, "fec_errors_12"), (248, "fec_errors_13"), (249, "fec_errors_14"),
    (250, "fec_errors_15")]

/-- The error-counter field ids. -/
def nvlinkErrorFieldIds : List Nat := nvlinkErrorFields.map Prod.fst

/-- The BER field ids. -/
def nvlinkBerFieldIds : List Nat := nvlinkBerFields.map Prod.fst

/-- The FEC history field ids. -/
def nvlinkFecFieldIds : List Nat := nvlinkFecFields.map Prod.fst

/-- All field descriptors of one device-wide batch, in the order the
builder emits them per link (error, BER, FEC groups). -/
def allNvlinkFieldIds : List Nat :=
  nvlinkErrorFieldIds ++ nvlinkBerFieldIds ++ nvlinkFecFieldIds

/-- Model of `nvlinkFieldKey`: the `(fieldId, link)` lookup key. -/
structure NvlinkFieldKey where
  fieldId : Nat
  link : Nat
deriving DecidableEq

/-- The request the builder appends for a key:
`nvml.FieldValue{FieldId: fieldID, ScopeId: link}`. -/
def requestOfKey (k : NvlinkFieldKey) : FieldValue :=
  { fieldId := k.fieldId, scopeId := k.link }

/-- The builder's `add` closure: record `index[key] = len(values)` and
append the request. -/
def buildStep (acc : List FieldValue × List (NvlinkFieldKey × Nat)) (k : NvlinkFieldKey) :
    List FieldValue × List (NvlinkFieldKey × Nat) :=
  (acc.1 ++ [requestOfKey k], acc.2 ++ [(k, acc.1.length)])

/-- The keys of one link's requests, in emission order. -/
def keysOfLink (link : Nat) : List NvlinkFieldKey :=
  allNvlinkFieldIds.map fun fieldId => NvlinkFieldKey.mk fieldId link

/-- A link is requested iff `GetNvLinkState(link)` (modelled by its
result pair `(state, ret)`) succeeds with `FEATURE_ENABLED` — the
negation of the builder's `continue` condition. -/
def linkEnabled (linkState : Nat → Nat × Nat) (link : Nat) : Bool :=
  decide ((linkState link).2 = NVML_SUCCESS) && decide ((linkState link).1 = FEATURE_ENABLED)

/-- Model of `buildDeviceWideNvLinkRequests`: for each link `0 ≤ link < 18`,
skip it when the state query fails or the link is not enabled, else
append one request per field descriptor (error, BER, FEC groups in
order), recording each position in the index. -/
def buildDeviceWideNvLinkRequests (linkState : Nat → Nat × Nat) :
    List FieldValue × List (NvlinkFieldKey × Nat) :=
  (List.range NVLINK_MAX_LINKS).foldl
    (fun acc link =>
      if ¬ (linkState link).2 = NVML_SUCCESS ∨ ¬ (linkState link).1 = FEATURE_ENABLED then acc
      else
        let acc1 := ((nvlinkErrorFieldIds.map fun f => NvlinkFieldKey.mk f link).foldl buildStep acc)
        let acc2 := ((nvlinkBerFieldIds.map fun f => NvlinkFieldKey.mk f link).foldl buildStep acc1)
        (nvlinkFecFieldIds.map fun f => NvlinkFieldKey.mk f link).foldl buildStep acc2)
    ([], [])

/-- The links `collectNVLinkErrors` treats as active, in ascending
order. -/
def activeLinks (linkState : Nat → Nat × Nat) : List Nat :=
  (List.range NVLINK_MAX_LINKS).filter (linkEnabled linkState)

/-- All `(fieldId, link)` pairs of a batch, in emission order. -/
def activeKeys (linkState : Nat → Nat × Nat) : List NvlinkFieldKey :=
  (activeLinks linkState).flatMap keysOfLink

/-- Model of `nvmlGpuFabricInfoV2`, as used by `collectFabricHealth`: clique id,
cluster UUID, state, status and the packed health mask. -/
structure FabricInfoV2 where
  cliqueId : Nat
  clusterUuid : Fin 16 → Nat
  state : Nat
  status : Nat
  healthMask : Nat

/-- A device as seen by the collectors: each NVML query is modelled by
its result (`ret` = status code, `0` = success).  `fieldRes` gives the
filled `FieldValue` the batched `GetFieldValues` call produces for a
request with a given `(fieldId, scopeId)`; `fieldValuesRet` is the
overall status of that call. -/
structure NvDevice where
  uuidRes : String × Nat
  pciRes : (Fin 16 → Nat) × Nat
  linkState : Nat → Nat × Nat
  fieldValuesRet : Nat
  fieldRes : Nat → Nat → FieldValue
  fabricInfoRes : FabricInfoV2 × Nat

/-- The batched `device.GetFieldValues(fieldValues)` call: results are
filled in place, one per request in request order, each determined by
the request's `(fieldId, scopeId)`. -/
def getFieldValuesFill (d : NvDevice) (requests : List FieldValue) : List FieldValue :=
  requests.map fun r => d.fieldRes r.fieldId r.scopeId

/-- The part of `collectNVLinkErrors` that decides whether a batched
query is issued for one device: `none` when the device is skipped
(UUID failure, PCI failure, or an empty request batch), otherwise the
issued request sequence. -/
def nvlinkIssuedQuery (d : NvDevice) : Option (List FieldValue) :=
  if d.uuidRes.2 ≠ NVML_SUCCESS then none
  else if d.pciRes.2 ≠ NVML_SUCCESS then none
  else
    let fieldValues := (buildDeviceWideNvLinkRequests d.linkState).1
    if fieldValues.length = 0 then none else some fieldValues

/-! Section: The periodic collectors as sample producers

`prometheus.GaugeVec.WithLabelValues(...).Set(v)` writes are modelled as
`Sample` records appended, in program order, to a registry list. -/

/-- A gauge value: a codec `float64` (`GoFloat`) or an exactly
representable number (`ℚ`). -/
inductive MetricValue where
  | ofFloat (f : GoFloat)
  | ofRat (q : ℚ)
deriving DecidableEq

/-- One metric write: metric name, UUID label, PCI-bus-id label (a raw
byte string), the remaining label values in declaration order, and the
value. -/
structure Sample where
  metric : String
  uuid : String
  pciBusId : List Nat
  labels : List String
  value : MetricValue
deriving DecidableEq

/-- Model of `fmt.Sprintf("%02x", b)` for a byte. -/
def byteHex (b : Nat) : String :=
  String.mk [Nat.digitChar (b % 256 / 16), Nat.digitChar (b % 16)]

/-- Model of `uuidBytesToString` (`fabric_health.go`): the 16-byte cluster UUID
formatted as 8-4-4-4-12 lowercase hex. -/
def uuidBytesToString (uuid : Fin 16 → Nat) : String :=
  byteHex (uuid ⟨0, by omega⟩) ++ byteHex (uuid ⟨1, by omega⟩) ++
    byteHex (uuid ⟨2, by omega⟩) ++ byteHex (uuid ⟨3, by omega⟩) ++ "-" ++
    byteHex (uuid ⟨4, by omega⟩) ++ byteHex (uuid ⟨5, by omega⟩) ++ "-" ++
    byteHex (uuid ⟨6, by omega⟩) ++ byteHex (uuid ⟨7, by omega⟩) ++ "-" ++
    byteHex (uuid ⟨8, by omega⟩) ++ byteHex (uuid ⟨9, by omega⟩) ++ "-" ++
    byteHex (uuid ⟨10, by omega⟩) ++ byteHex (uuid ⟨11, by omega⟩) ++
    byteHex (uuid ⟨12, by omega⟩) ++ byteHex (uuid ⟨13, by omega⟩) ++
    byteHex (uuid ⟨14, by omega⟩) ++ byteHex (uuid ⟨15, by omega⟩)

/-- The samples `collectFabricHealth` emits for one device: none on
UUID / PCI / fabric-info failure (the device is skipped with
`continue`), else the fabric state, status, the four per-flag health
gauges, the incorrect-configuration code and the derived health
summary, in emission order. -/
def collectFabricHealthDevice (d : NvDevice) : List Sample :=
  if d.uuidRes.2 ≠ NVML_SUCCESS then []
  else if d.pciRes.2 ≠ NVML_SUCCESS then []
  else if d.fabricInfoRes.2 ≠ NVML_SUCCESS then []
  else
    let uuid := d.uuidRes.1
    let pciBusId := pciBusIdToString d.pciRes.1
    let info := d.fabricInfoRes.1
    let clusterUUID := uuidBytesToString info.clusterUuid
    let cliqueID := Nat.repr info.cliqueId
    let degradedBw := healthSubfield info.healthMask 0
    let routeRecovery := healthSubfield info.healthMask 2
    let routeUnhealthy := healthSubfield info.healthMask 4
    let accessTimeoutRecovery := healthSubfield info.healthMask 6
    let incorrectConfig := incorrectConfigSubfield info.healthMask
    [⟨"fabric_state", uuid, pciBusId, [cliqueID, clusterUUID], .ofRat info.state⟩,
      ⟨"fabric_status", uuid, pciBusId, [cliqueID, clusterUUID], .ofRat info.status⟩,
      ⟨"fabric_health", uuid, pciBusId, [cliqueID, clusterUUID, "degraded_bandwidth"],
        .ofRat (healthFlagGauge info.healthMask 0)⟩,
      ⟨"fabric_health", uuid, pciBusId, [cliqueID, clusterUUID, "route_recovery"],
        .ofRat (healthFlagGauge info.healthMask 2)⟩,
      ⟨"fabric_health", uuid, pciBusId, [cliqueID, clusterUUID, "route_unhealthy"],
        .ofRat (healthFlagGauge info.healthMask 4)⟩,
      ⟨"fabric_health", uuid, pciBusId, [cliqueID, clusterUUID, "access_timeout_recovery"],
        .ofRat (healthFlagGauge info.healthMask 6)⟩,
      ⟨"fabric_incorrect_configuration", uuid, pciBusId, [cliqueID, clusterUUID],
        .ofRat incorrectConfig⟩,
      ⟨"fabric_health_summary", uuid, pciBusId, [cliqueID, clusterUUID],
        .ofRat (calculateHealthSummary degradedBw routeRecovery routeUnhealthy
          accessTimeoutRecovery incorrectConfig)⟩]

/-- Model of `collectFabricHealth`: the per-device loop, appending each device's
samples to the registry. -/
def collectFabricHealth (devices : List NvDevice) (registry : List Sample) : List Sample :=
  devices.foldl (fun reg d => reg ++ collectFabricHealthDevice d) registry

/-- Model of `linkActive` (`nvlink.go`): the state query succeeded and the state
is `FEATURE_ENABLED`. -/
def linkActive (d : NvDevice) (link : Nat) : Bool :=
  decide ((d.linkState link).2 = NVML_SUCCESS) && decide ((d.linkState link).1 = FEATURE_ENABLED)

/-- Decoding of a non-BER NVLink field for the gauge
(`fieldValueToFloat64`). -/
def nvlinkFloatDecode (fv : FieldValue) : Except DecodeErr MetricValue :=
  (fieldValueToFloat64 fv).map .ofFloat

/-- Decoding of a BER NVLink field for the gauge (`decodeBER`). -/
def nvlinkBerDecode (fv : FieldValue) : Except DecodeErr MetricValue :=
  (decodeBER fv).map .ofRat

/-- The body of one `(field, link)` iteration of `collectNVLinkErrors`:
fetch `fieldValues[index[key]]` (a key missing from the Go map yields
index `0`; the list read is modelled by `getD` with the zero
`FieldValue`), skip the sample unless the per-request status is success
and decoding succeeds. -/
def nvlinkFieldSample (uuid : String) (pciBusId : List Nat) (fieldValues : List FieldValue)
    (index : List (NvlinkFieldKey × Nat)) (decode : FieldValue → Except DecodeErr MetricValue)
    (link : Nat) (field : Nat × String) : Option Sample :=
  let fv := fieldValues.getD ((index.lookup ⟨field.1, link⟩).getD 0) {}
  if fv.nvmlReturn ≠ NVML_SUCCESS then none
  else
    match decode fv with
    | .error _ => none
    | .ok v => some ⟨"nvlink_errors_total", uuid, pciBusId, [Nat.repr link, field.2], v⟩

/-- The samples `collectNVLinkErrors` emits for one device: none on
UUID / PCI failure, an empty batch, or a failed batched query;
otherwise, for each active link, the decoded error, BER and FEC
samples in source order (each field skipped individually on a
non-success per-request status or a decode error). -/
def collectNVLinkErrorsDevice (d : NvDevice) : List Sample :=
  if d.uuidRes.2 ≠ NVML_SUCCESS then []
  else if d.pciRes.2 ≠ NVML_SUCCESS then []
  else
    let uuid := d.uuidRes.1
    let pciBusId := pciBusIdToString d.pciRes.1
    let built := buildDeviceWideNvLinkRequests d.linkState
    if built.1.length = 0 then []
    else
      let fieldValues := getFieldValuesFill d built.1
      if d.fieldValuesRet ≠ NVML_SUCCESS then []
      else
        (List.range NVLINK_MAX_LINKS).flatMap fun link =>
          if ¬ linkActive d link then []
          else
            (nvlinkErrorFields.filterMap
              (nvlinkFieldSample uuid pciBusId fieldValues built.2 nvlinkFloatDecode link)) ++
            (nvlinkBerFields.filterMap
              (nvlinkFieldSample uuid pciBusId fieldValues built.2 nvlinkBerDecode link)) ++
            (nvlinkFecFields.filterMap
              (nvlinkFieldSample uuid pciBusId fieldValues built.2 nvlinkFloatDecode link))

/-- Model of `collectNVLinkErrors`: the per-device loop, appending each device's
samples to the registry. -/
def collectNVLinkErrors (devices : List NvDevice) (registry : List Sample) : List Sample :=
  devices.foldl (fun reg d => reg ++ collectNVLinkErrorsDevice d) registry

/-- One tick of the collection goroutine (`startFabricHealthCollector`):
`collectFabricHealth(devices)` then `collectNVLinkErrors(devices)`,
both writing into the shared registry. -/
def collectorsTick (devices : List NvDevice) (registry : List Sample) : List Sample :=
  collectNVLinkErrors devices (collectFabricHealth devices registry)

/-- The per-`(field, link)` sample computed directly from the device's
response for that field — the clean form the indexed implementation is
proved to match. -/
def nvlinkFieldSampleClean (d : NvDevice) (decode : FieldValue → Except DecodeErr MetricValue)
    (link : Nat) (field : Nat × String) : Option Sample :=
  let fv := d.fieldRes field.1 link
  if fv.nvmlReturn ≠ NVML_SUCCESS then none
  else
    match decode fv with
    | .error _ => none
    | .ok v => some ⟨"nvlink_errors_total", d.uuidRes.1, pciBusIdToString d.pciRes.1,
        [Nat.repr link, field.2], v⟩

/-! Section: GPU topology collection (`collectGpuTopologyInfo`) -/

/-- Model of `topologyLevelToString`: NVML topology levels
(`TOPOLOGY_INTERNAL/SINGLE/MULTIPLE/HOSTBRIDGE/NODE/SYSTEM` =
0/10/20/30/40/50) to `nvidia-smi`-style labels. -/
def topologyLevelToString (level : Nat) : String :=
  if level = 0 then "SOC"
  else if level = 10 then "PIX"
  else if level = 20 then "PXB"
  else if level = 30 then "PHB"
  else if level = 40 then "NODE"
  else if level = 50 then "SYS"
  else "UNKNOWN"

/-- The topology cache (`topologyCache`) plus a log of the
`GetTopologyCommonAncestor` invocations made, each recorded as the
unordered `(min, max)` pair it was made for. -/
structure TopoState where
  cache : List ((Nat × Nat) × String)
  queries : List (Nat × Nat)

/-- The `getTopologyLabel` closure: a self-pair is `"X"` with no query;
otherwise the `(min(a,b), max(a,b))` cache entry is returned when
present, else the ancestor-distance capability (its `(level, ret)`
result modelled as an `Option`) is invoked once and the label cached. -/
def getTopologyLabel (anc : Nat → Nat → Option Nat) (st : TopoState) (a b : Nat) :
    String × TopoState :=
  if a = b then ("X", st)
  else
    let key := (min a b, max a b)
    match st.cache.lookup key with
    | some val => (val, st)
    | none =>
      let label :=
        match anc a b with
        | some level => topologyLevelToString level
        | none => "unknown"
      (label, ⟨st.cache ++ [(key, label)], st.queries ++ [key]⟩)

/-- One device's `gpu0..gpu3` labels: index at or past the device count
is `"absent"` (no query), else `getTopologyLabel`. -/
def topoRow (anc : Nat → Nat → Option Nat) (n i : Nat) (st : TopoState) :
    List String × TopoState :=
  (List.range 4).foldl
    (fun acc idx =>
      if n ≤ idx then (acc.1 ++ ["absent"], acc.2)
      else
        let r := getTopologyLabel anc acc.2 i idx
        (acc.1 ++ [r.1], r.2))
    ([], st)

/-- The query-relevant part of `collectGpuTopologyInfo`: for each device
`i < n`, a `GpuInfo(i)` failure returns the error immediately (the
remaining devices are not processed), else the row's labels are
computed.  Result: the rows, the final cache/query state, and whether
the loop completed. -/
def collectGpuTopologyInfo (n : Nat) (gpuInfoOk : Nat → Bool) (anc : Nat → Nat → Option Nat) :
    List (List String) × TopoState × Bool :=
  (List.range n).foldl
    (fun acc i =>
      if acc.2.2 = false then acc
      else if gpuInfoOk i = false then (acc.1, acc.2.1, false)
      else
        let r := topoRow anc n i acc.2.1
        (acc.1 ++ [r.1], r.2, true))
    ([], ⟨[], []⟩, true)

/-- Invariant tying the cache to the query log: the logged unordered
pairs are distinct, strictly ordered with both components below `n`,
and are exactly the cache keys. -/
def TopoInv (n : Nat) (st : TopoState) : Prop :=
  st.queries.Nodup ∧ (∀ k ∈ st.queries, k.1 < k.2 ∧ k.2 < n) ∧
    st.cache.map Prod.fst = st.queries

/-- The unordered pairs over `n` devices, as ordered pairs `(a, b)` with
`a < b < n`. -/
def pairsBelow (n : Nat) : Finset (Nat × Nat) :=
  (Finset.range n).biUnion fun b => (Finset.range b).image fun a => (a, b)

/-! Section: Theorems -/

/-! Section: Claim C1: BER decoding -/

/-- Claim C1: For every 8-byte field value whose decoded unsigned integer is
`r`, `decodeBER` returns `mantissa * 10^(-exponent)` where `exponent` is
the low 8 bits of `r` and `mantissa` is bits 8–11 (4 bits), except that
when both are zero the result is exactly `0`; in particular
`decodeBER(mantissa=0, exponent=0) = 0`, `decodeBER(mantissa=5,
exponent=2) = 0.05` and `decodeBER(mantissa=15, exponent=0) = 15`. -/
theorem decodeBER_mantissa_exponent :
    (∀ (fv : FieldValue) (r : Nat), fieldValueToUint64 fv = .ok r →
        decodeBER fv = .ok (if r % 256 = 0 ∧ r / 256 % 16 = 0 then 0
          else ((r / 256 % 16 : Nat) : ℚ) * 10 ^ (-((r % 256 : Nat) : ℤ))))
    ∧ decodeBER (mkBerFieldValue 0 0) = .ok 0
    ∧ decodeBER (mkBerFieldValue 5 2) = .ok (5 / 100)
    ∧ decodeBER (mkBerFieldValue 15 0) = .ok 15 := by
  refine ⟨fun fv r h => ?_, ?_, ?_, ?_⟩
  · simp only [decodeBER, h]
    split <;> rfl
  all_goals
    simp only [decodeBER, fieldValueToUint64, mkBerFieldValue, VALUE_TYPE_UNSIGNED_LONG_LONG,
      VALUE_TYPE_UNSIGNED_INT, VALUE_TYPE_UNSIGNED_LONG, leU64]
    norm_num

/-- Witness for C1: the general part applied to the concrete field value
encoding mantissa 5, exponent 2 (raw value 1282). -/
theorem decodeBER_mantissa_exponent_witness :
    fieldValueToUint64 (mkBerFieldValue 5 2) = .ok 1282 ∧
      decodeBER (mkBerFieldValue 5 2) =
        .ok (if 1282 % 256 = 0 ∧ 1282 / 256 % 16 = 0 then 0
          else ((1282 / 256 % 16 : Nat) : ℚ) * 10 ^ (-((1282 % 256 : Nat) : ℤ))) := by
  have h : fieldValueToUint64 (mkBerFieldValue 5 2) = .ok 1282 := by
    simp only [fieldValueToUint64, mkBerFieldValue, VALUE_TYPE_UNSIGNED_LONG_LONG,
      VALUE_TYPE_UNSIGNED_INT, VALUE_TYPE_UNSIGNED_LONG, leU64]
    norm_num
  exact ⟨h, decodeBER_mantissa_exponent.1 (mkBerFieldValue 5 2) 1282 h⟩

/-! Section: Claim C7: codec tag dispatch and error behaviour -/

/-- Claim C7: For every 8-byte field value, the codec returns a `float64`
by little-endian decoding when the value-type tag is signed 32-bit,
unsigned 32-bit, unsigned 64-bit (`UNSIGNED_LONG` or
`UNSIGNED_LONG_LONG`) or IEEE-754 double, and returns a decode error for
every other tag (the model functions are total, so no input can panic or
crash); the BER path additionally returns a decode error for any tag
other than the unsigned integer types. -/
theorem fieldValueCodec_tag_dispatch :
    (∀ fv : FieldValue, fv.valueType = VALUE_TYPE_DOUBLE →
        fieldValueToFloat64 fv = .ok (.ofBits (leU64 fv.value)))
    ∧ (∀ fv : FieldValue, fv.valueType = VALUE_TYPE_UNSIGNED_INT →
        fieldValueToFloat64 fv = .ok (.ofInt (leU32 fv.value)))
    ∧ (∀ fv : FieldValue, fv.valueType = VALUE_TYPE_SIGNED_INT →
        fieldValueToFloat64 fv = .ok (.ofInt (toSigned32 (leU32 fv.value))))
    ∧ (∀ fv : FieldValue,
        fv.valueType = VALUE_TYPE_UNSIGNED_LONG ∨ fv.valueType = VALUE_TYPE_UNSIGNED_LONG_LONG →
        fieldValueToFloat64 fv = .ok (.ofInt (leU64 fv.value)))
    ∧ (∀ fv : FieldValue, fv.valueType ≠ VALUE_TYPE_DOUBLE →
        fv.valueType ≠ VALUE_TYPE_UNSIGNED_INT → fv.valueType ≠ VALUE_TYPE_SIGNED_INT →
        fv.valueType ≠ VALUE_TYPE_UNSIGNED_LONG → fv.valueType ≠ VALUE_TYPE_UNSIGNED_LONG_LONG →
        fieldValueToFloat64 fv = .error (.unsupportedType fv.valueType))
    ∧ (∀ fv : FieldValue, fv.valueType ≠ VALUE_TYPE_UNSIGNED_INT →
        fv.valueType ≠ VALUE_TYPE_UNSIGNED_LONG → fv.valueType ≠ VALUE_TYPE_UNSIGNED_LONG_LONG →
        fieldValueToUint64 fv = .error (.unsupportedTypeForBER fv.valueType)
          ∧ decodeBER fv = .error (.unsupportedTypeForBER fv.valueType)) := by
  have hber : ∀ fv : FieldValue, fv.valueType ≠ VALUE_TYPE_UNSIGNED_INT →
      fv.valueType ≠ VALUE_TYPE_UNSIGNED_LONG → fv.valueType ≠ VALUE_TYPE_UNSIGNED_LONG_LONG →
      fieldValueToUint64 fv = .error (.unsupportedTypeForBER fv.valueType) := by
    intro fv h1 h2 h3
    simp [fieldValueToUint64, h1, h2, h3]
  refine ⟨?_, ?_, ?_, ?_, ?_, ?_⟩
  · intro fv h
    simp [fieldValueToFloat64, h]
  · intro fv h
    simp [fieldValueToFloat64, h, VALUE_TYPE_UNSIGNED_INT, VALUE_TYPE_DOUBLE]
  · intro fv h
    simp [fieldValueToFloat64, h, VALUE_TYPE_SIGNED_INT, VALUE_TYPE_DOUBLE,
      VALUE_TYPE_UNSIGNED_INT]
  · intro fv h
    rcases h with h | h <;>
      simp [fieldValueToFloat64, h, VALUE_TYPE_UNSIGNED_LONG, VALUE_TYPE_UNSIGNED_LONG_LONG,
        VALUE_TYPE_DOUBLE, VALUE_TYPE_UNSIGNED_INT, VALUE_TYPE_SIGNED_INT]
  · intro fv h0 h1 h2 h3 h4
    simp [fieldValueToFloat64, h0, h1, h2, h3, h4]
  · intro fv h1 h2 h3
    refine ⟨hber fv h1 h2 h3, ?_⟩
    simp [decodeBER, hber fv h1 h2 h3]

/-- Witness for C7: the dispatch theorem applied at concrete field
values: an unsupported tag `9`, and the BER path on a `SIGNED_INT`
tagged value. -/
theorem fieldValueCodec_tag_dispatch_witness :
    fieldValueToFloat64 { valueType := 9 } = .error (.unsupportedType 9)
    ∧ fieldValueToUint64 { valueType := VALUE_TYPE_SIGNED_INT } =
        .error (.unsupportedTypeForBER VALUE_TYPE_SIGNED_INT)
    ∧ decodeBER { valueType := VALUE_TYPE_SIGNED_INT } =
        .error (.unsupportedTypeForBER VALUE_TYPE_SIGNED_INT) := by
  refine ⟨?_, ?_, ?_⟩
  · exact fieldValueCodec_tag_dispatch.2.2.2.2.1 { valueType := 9 }
      (by decide) (by decide) (by decide) (by decide) (by decide)
  · exact (fieldValueCodec_tag_dispatch.2.2.2.2.2 { valueType := VALUE_TYPE_SIGNED_INT }
      (by decide) (by decide) (by decide)).1
  · exact (fieldValueCodec_tag_dispatch.2.2.2.2.2 { valueType := VALUE_TYPE_SIGNED_INT }
      (by decide) (by decide) (by decide)).2

theorem classifyFlag_eq_notSupported (v : Nat) : classifyFlag v = .notSupported ↔ v = 0 := by
  simp only [classifyFlag]
  split_ifs with h1 h2 <;> simp_all

theorem classifyFlag_eq_isTrue (v : Nat) : classifyFlag v = .isTrue ↔ v = 1 := by
  simp only [classifyFlag]
  split_ifs with h1 h2 <;> simp_all

/-! Section: Claim C2: health summary priority cascade -/

/-- Claim C2: For every combination of decoded sub-fields, the health
summary is the strict priority cascade worded by the spec; in particular
degraded-bandwidth = true together with route-unhealthy = true yields
Unhealthy, never LimitedCapacity. -/
theorem calculateHealthSummary_priority_cascade :
    (∀ degradedBw routeRecovery routeUnhealthy accessTimeoutRecovery incorrectConfig : Nat,
        calculateHealthSummary degradedBw routeRecovery routeUnhealthy accessTimeoutRecovery
            incorrectConfig =
          healthSummaryCascadeSpec degradedBw routeRecovery routeUnhealthy accessTimeoutRecovery
            incorrectConfig)
    ∧ (∀ routeRecovery accessTimeoutRecovery incorrectConfig : Nat,
        calculateHealthSummary GPU_FABRIC_HEALTH_MASK_DEGRADED_BW_TRUE routeRecovery
            GPU_FABRIC_HEALTH_MASK_ROUTE_UNHEALTHY_TRUE accessTimeoutRecovery incorrectConfig =
          GPU_FABRIC_HEALTH_SUMMARY_UNHEALTHY) := by
  constructor
  · intro d rr ru atr ic
    simp only [calculateHealthSummary, healthSummaryCascadeSpec,
      classifyFlag_eq_notSupported, classifyFlag_eq_isTrue,
      GPU_FABRIC_HEALTH_MASK_DEGRADED_BW_NOT_SUPPORTED,
      GPU_FABRIC_HEALTH_MASK_ROUTE_RECOVERY_NOT_SUPPORTED,
      GPU_FABRIC_HEALTH_MASK_ROUTE_UNHEALTHY_NOT_SUPPORTED,
      GPU_FABRIC_HEALTH_MASK_ACCESS_TIMEOUT_RECOVERY_NOT_SUPPORTED,
      GPU_FABRIC_HEALTH_MASK_ROUTE_RECOVERY_TRUE,
      GPU_FABRIC_HEALTH_MASK_ROUTE_UNHEALTHY_TRUE,
      GPU_FABRIC_HEALTH_MASK_ACCESS_TIMEOUT_RECOVERY_TRUE,
      GPU_FABRIC_HEALTH_MASK_DEGRADED_BW_TRUE]
  · intro rr atr ic
    simp [calculateHealthSummary, GPU_FABRIC_HEALTH_MASK_DEGRADED_BW_TRUE,
      GPU_FABRIC_HEALTH_MASK_DEGRADED_BW_NOT_SUPPORTED,
      GPU_FABRIC_HEALTH_MASK_ROUTE_UNHEALTHY_TRUE, GPU_FABRIC_HEALTH_SUMMARY_UNHEALTHY]

/-! Section: Claim C4: not-supported sentinel vs false/healthy in the
per-sub-field gauge -/

/-- Claim C4, counterexample: The per-sub-field gauge of
`collectFabricHealth` does conflate the not-supported sentinel with
false/healthy: a health mask whose degraded-bandwidth sub-field is the
not-supported sentinel (mask 0) and one whose sub-field is false (mask 2)
are reported with the same gauge value. -/
theorem healthFlagGauge_conflates_notSupported_and_false :
    healthSubfield 0 0 = GPU_FABRIC_HEALTH_MASK_DEGRADED_BW_NOT_SUPPORTED
    ∧ healthSubfield 2 0 = GPU_FABRIC_HEALTH_MASK_DEGRADED_BW_FALSE
    ∧ healthFlagGauge 0 0 = healthFlagGauge 2 0 := by
  refine ⟨by decide, by decide, ?_⟩
  norm_num [healthFlagGauge, flagToGauge, healthSubfield]

/-- Claim C4, amended: The per-sub-field gauge reports `0` exactly when the
extracted 2-bit value equals the true sentinel and `1` otherwise; a
sub-field equal to its not-supported sentinel is therefore reported with
the same gauge value (`1`) as a false/healthy sub-field. -/
theorem healthFlagGauge_spec :
    (∀ mask off : Nat,
        healthFlagGauge mask off = if healthSubfield mask off = 1 then 0 else 1)
    ∧ (∀ mask mask' off : Nat,
        healthSubfield mask off = GPU_FABRIC_HEALTH_MASK_DEGRADED_BW_NOT_SUPPORTED →
        healthSubfield mask' off = GPU_FABRIC_HEALTH_MASK_DEGRADED_BW_FALSE →
        healthFlagGauge mask off = healthFlagGauge mask' off) := by
  have h : ∀ mask off : Nat,
      healthFlagGauge mask off = if healthSubfield mask off = 1 then 0 else 1 := by
    intro mask off
    by_cases h : healthSubfield mask off = 1 <;>
      simp [healthFlagGauge, flagToGauge, h]
  refine ⟨h, fun mask mask' off h0 h2 => ?_⟩
  rw [h, h, h0, h2]
  norm_num [GPU_FABRIC_HEALTH_MASK_DEGRADED_BW_NOT_SUPPORTED,
    GPU_FABRIC_HEALTH_MASK_DEGRADED_BW_FALSE]

/-- Witness for the amended C4: applied at masks `0` (not-supported) and
`2` (false) at offset `0`. -/
theorem healthFlagGauge_spec_witness :
    healthSubfield 0 0 = GPU_FABRIC_HEALTH_MASK_DEGRADED_BW_NOT_SUPPORTED
    ∧ healthSubfield 2 0 = GPU_FABRIC_HEALTH_MASK_DEGRADED_BW_FALSE
    ∧ healthFlagGauge 0 0 = healthFlagGauge 2 0 :=
  ⟨by decide, by decide, healthFlagGauge_spec.2 0 2 0 (by decide) (by decide)⟩

/-- Claim C10: `pciBusIdToString` is total on its 16-byte domain: it
returns the prefix of the buffer of length exactly 12 or 13 (never the
empty string), truncating to length 12 exactly when byte 12 is zero or
non-printable (truncating at position 13 coincides with taking the
default 13 bytes); all indexing is within the 16-byte bound by
construction (`Fin 16`). -/
theorem pciBusIdToString_total_prefix :
    ∀ busId : Fin 16 → Nat,
      ((pciBusIdToString busId).length = 12 ∨ (pciBusIdToString busId).length = 13)
      ∧ pciBusIdToString busId <+: List.ofFn busId
      ∧ pciBusIdToString busId ≠ []
      ∧ pciBusIdToString busId =
          (List.ofFn busId).take (if pciBadByte (busId ⟨12, by omega⟩) then 12 else 13) := by
  intro b
  have hlen : (List.ofFn b).length = 16 := by simp
  have htake : ∀ n : Nat, ((List.ofFn b).take n).length = min n 16 := by
    simp [List.length_take]
  by_cases h12 : pciBadByte (b ⟨12, by omega⟩) <;>
    by_cases h13 : pciBadByte (b ⟨13, by omega⟩) <;>
      simp only [pciBusIdToString, h12, h13, if_true, if_false] <;>
      refine ⟨by simp [htake], List.take_prefix _ _, ?_, by simp [h12, h13]⟩ <;>
      · intro hnil
        have := congrArg List.length hnil
        simp [htake] at this

/-! Section: Claim C8: wait timeouts have no observable effect -/

/-- Claim C8: A wait-timeout result never changes the fault-counter state,
never updates the exported counter metric and never emits a log record:
the loop just re-enters the wait.  Any other wait error leaves the state
unchanged, emits only the wait-error log and the loop continues (the
subscription is never terminated): a whole trace behaves exactly like the
trace with all timeout results removed. -/
theorem xid_wait_timeout_no_effect :
    (∀ (st : XidState) (event : EventData),
        xidLoopIteration st event NVML_ERROR_TIMEOUT = (st, []))
    ∧ (∀ (st : XidState) (event : EventData) (ret : Nat),
        ret ≠ NVML_SUCCESS → ret ≠ NVML_ERROR_TIMEOUT →
        xidLoopIteration st event ret = (st, [.waitError ret]))
    ∧ (∀ (st : XidState) (trace : List (EventData × Nat)),
        runXidLoop st trace =
          runXidLoop st (trace.filter fun p => decide (p.2 ≠ NVML_ERROR_TIMEOUT))) := by
  refine ⟨fun st event => by simp [xidLoopIteration], ?_, ?_⟩
  · intro st event ret h1 h2
    simp [xidLoopIteration, h1, h2]
  · intro st trace
    induction trace generalizing st with
    | nil => rfl
    | cons p rest ih =>
      obtain ⟨event, ret⟩ := p
      by_cases h : ret = NVML_ERROR_TIMEOUT
      · subst h
        rw [List.filter_cons_of_neg (by simp)]
        have hstep : xidLoopIteration st event NVML_ERROR_TIMEOUT = (st, []) := by
          simp [xidLoopIteration]
        rw [runXidLoop, hstep]
        simpa using ih st
      · rw [List.filter_cons_of_pos (by simpa using h)]
        rw [runXidLoop, runXidLoop, ih]

/-- Witness for C8: the non-timeout error branch applied at the empty
state, a dummy event and return code 1 (`NVML_ERROR_UNINITIALIZED`). -/
theorem xid_wait_timeout_no_effect_witness :
    (1 : Nat) ≠ NVML_SUCCESS ∧ (1 : Nat) ≠ NVML_ERROR_TIMEOUT ∧
      xidLoopIteration ⟨[], []⟩ ⟨0, 0, ("", 0), (fun _ => 0, 0)⟩ 1 =
        (⟨[], []⟩, [.waitError 1]) :=
  ⟨by decide, by decide,
    xid_wait_timeout_no_effect.2.1 ⟨[], []⟩ ⟨0, 0, ("", 0), (fun _ => 0, 0)⟩ 1
      (by decide) (by decide)⟩

theorem mergeRanges_eq_runsFrom (l : List Nat) :
    ∀ start prev ranges, mergeRanges l start prev ranges =
      ranges ++ (runsFrom start prev l).map fun r => formatRange r.1 r.2 := by
  induction l with
  | nil => intro start prev ranges; rfl
  | cons c rest ih =>
    intro start prev ranges
    by_cases h : c = prev + 1
    · simp only [mergeRanges, runsFrom, if_pos h, ih]
    · simp only [mergeRanges, runsFrom, if_neg h, ih, List.map_cons, List.append_assoc,
        List.singleton_append]

theorem runsFrom_head (l : List Nat) :
    ∀ start prev, ∃ e rs, runsFrom start prev l = (start, e) :: rs := by
  induction l with
  | nil => intro start prev; exact ⟨prev, [], rfl⟩
  | cons c rest ih =>
    intro start prev
    by_cases h : c = prev + 1
    · simpa only [runsFrom, if_pos h] using ih start c
    · exact ⟨prev, runsFrom c c rest, by simp only [runsFrom, if_neg h]⟩

theorem runsFrom_le (l : List Nat) :
    ∀ start prev, start ≤ prev → List.Chain (· < ·) prev l →
      ∀ r ∈ runsFrom start prev l, r.1 ≤ r.2 := by
  induction l with
  | nil =>
    intro start prev hsp _ r hr
    simp only [runsFrom, List.mem_singleton] at hr
    simpa [hr] using hsp
  | cons c rest ih =>
    intro start prev hsp hch r hr
    rw [List.chain_cons] at hch
    by_cases h : c = prev + 1
    · rw [runsFrom, if_pos h] at hr
      exact ih start c (by omega) hch.2 r hr
    · rw [runsFrom, if_neg h] at hr
      rcases List.mem_cons.1 hr with hr | hr
      · simpa [hr] using hsp
      · exact ih c c le_rfl hch.2 r hr

theorem joinRuns_runsFrom (l : List Nat) :
    ∀ start prev, start ≤ prev → List.Chain (· < ·) prev l →
      joinRuns (runsFrom start prev l) = List.range' start (prev + 1 - start) ++ l := by
  induction l with
  | nil =>
    intro start prev _ _
    simp [joinRuns, runsFrom]
  | cons c rest ih =>
    intro start prev hsp hch
    rw [List.chain_cons] at hch
    by_cases h : c = prev + 1
    · rw [runsFrom, if_pos h, ih start c (by omega) hch.2]
      have : prev + 1 + 1 - start = (prev + 1 - start) + 1 := by omega
      subst h
      rw [this, List.range'_concat]
      have h1 : start + 1 * (prev + 1 - start) = prev + 1 := by omega
      rw [h1, List.append_assoc, List.singleton_append]
    · rw [runsFrom, if_neg h]
      have hjoin : joinRuns ((start, prev) :: runsFrom c c rest) =
          List.range' start (prev + 1 - start) ++ joinRuns (runsFrom c c rest) := by
        simp [joinRuns]
      rw [hjoin, ih c c le_rfl hch.2]
      simp

theorem runsFrom_gaps (l : List Nat) :
    ∀ start prev, start ≤ prev → List.Chain (· < ·) prev l →
      List.Chain' (fun r1 r2 : Nat × Nat => r1.2 + 2 ≤ r2.1) (runsFrom start prev l) := by
  induction l with
  | nil => intro start prev _ _; simp [runsFrom]
  | cons c rest ih =>
    intro start prev hsp hch
    rw [List.chain_cons] at hch
    by_cases h : c = prev + 1
    · rw [runsFrom, if_pos h]
      exact ih start c (by omega) hch.2
    · rw [runsFrom, if_neg h]
      obtain ⟨e, rs, hrs⟩ := runsFrom_head rest c c
      rw [hrs]
      refine List.Chain'.cons ?_ (hrs ▸ ih c c le_rfl hch.2)
      have := hch.1
      omega

theorem pairwise_fst_lt_enumFrom {α : Type} (l : List α) :
    ∀ n, (l.enumFrom n).Pairwise (fun a b => a.1 < b.1) := by
  induction l with
  | nil => intro n; simp
  | cons x xs ih =>
    intro n
    rw [List.enumFrom_cons]
    refine List.Pairwise.cons ?_ (ih (n + 1))
    intro p hp
    have := (List.mem_enumFrom hp).1
    simp only
    omega

theorem collectCpus_sorted (mask : List Nat) (numCPUs : Nat) :
    (collectCpus mask numCPUs).Pairwise (· < ·) := by
  rw [collectCpus, List.flatMap_def, List.pairwise_flatten]
  constructor
  · intro l' hl'
    rw [List.mem_map] at hl'
    obtain ⟨iw, _, rfl⟩ := hl'
    refine List.Pairwise.map _ (fun a b hab => ?_)
      (List.Pairwise.filter _ (List.pairwise_lt_range uintSize))
    omega
  · rw [List.pairwise_map]
    refine (pairwise_fst_lt_enumFrom mask 0).imp ?_
    intro a b hab x hx y hy
    rw [List.mem_map] at hx hy
    obtain ⟨bx, hbx, rfl⟩ := hx
    obtain ⟨by', hby, rfl⟩ := hy
    have h1 : bx < uintSize := List.mem_range.1 (List.mem_of_mem_filter hbx)
    have h2 : by' < uintSize := List.mem_range.1 (List.mem_of_mem_filter hby)
    have : a.1 * uintSize + uintSize ≤ b.1 * uintSize := by
      have : a.1 + 1 ≤ b.1 := hab
      calc a.1 * uintSize + uintSize = (a.1 + 1) * uintSize := by ring
        _ ≤ b.1 * uintSize := Nat.mul_le_mul_right _ this
    omega

theorem mem_collectCpus (mask : List Nat) (numCPUs c : Nat) :
    c ∈ collectCpus mask numCPUs ↔
      ∃ idx word bit, mask.get? idx = some word ∧ bit < uintSize ∧ word.testBit bit ∧
        idx * uintSize + bit < numCPUs ∧ c = idx * uintSize + bit := by
  rw [collectCpus, List.mem_flatMap]
  constructor
  · rintro ⟨iw, hiw, hc⟩
    rw [List.mem_map] at hc
    obtain ⟨bit, hbit, rfl⟩ := hc
    rw [List.mem_filter] at hbit
    obtain ⟨hrange, hcond⟩ := hbit
    rw [Bool.and_eq_true, decide_eq_true_eq] at hcond
    obtain ⟨i, w⟩ := iw
    exact ⟨i, w, bit, List.mk_mem_enum_iff_get?.1 hiw, List.mem_range.1 hrange,
      hcond.1, hcond.2, rfl⟩
  · rintro ⟨idx, word, bit, hget, hbit, htest, hlt, rfl⟩
    refine ⟨(idx, word), List.mk_mem_enum_iff_get?.2 hget, ?_⟩
    rw [List.mem_map]
    exact ⟨bit, List.mem_filter.2 ⟨List.mem_range.2 hbit,
      by rw [Bool.and_eq_true, decide_eq_true_eq]; exact ⟨htest, hlt⟩⟩, rfl⟩

theorem toDigitsCore_length_mono (b : Nat) :
    ∀ (fuel n : Nat) (ds : List Char), ds.length ≤ (Nat.toDigitsCore b fuel n ds).length := by
  intro fuel
  induction fuel with
  | zero => intro n ds; simp [Nat.toDigitsCore]
  | succ f ih =>
    intro n ds
    rw [Nat.toDigitsCore]
    split
    · simp
    · exact le_trans (by simp) (ih (n / b) (Nat.digitChar (n % b) :: ds))

theorem natRepr_ne_empty (n : Nat) : Nat.repr n ≠ "" := by
  have h : 1 ≤ (Nat.toDigits 10 n).length := by
    rw [Nat.toDigits, Nat.toDigitsCore]
    split
    · simp
    · exact le_trans (by simp) (toDigitsCore_length_mono 10 n (n / 10) _)
  intro hcontra
  rw [Nat.repr] at hcontra
  have : (Nat.toDigits 10 n).asString.data = "".data := by rw [hcontra]
  simp only [List.asString, String.data] at this
  rw [this] at h
  simp at h

theorem string_eq_empty_of_length {s : String} (h : s.length = 0) : s = "" := by
  have hd : s.data.length = 0 := h
  exact String.ext (by simpa using List.length_eq_zero.1 hd)

theorem formatRange_ne_empty (s e : Nat) : formatRange s e ≠ "" := by
  rw [formatRange]
  split
  · exact natRepr_ne_empty s
  · intro h
    have hlen := congrArg String.length h
    rw [String.length_append, String.length_append] at hlen
    have h1 : (Nat.repr s).length ≠ 0 := fun h0 =>
      natRepr_ne_empty s (string_eq_empty_of_length h0)
    have h2 : ("" : String).length = 0 := rfl
    omega

theorem stringsJoin_ne_empty (elems : List String) (sep : String)
    (hne : elems ≠ []) (hhead : ∀ x ∈ elems, x ≠ "") : stringsJoin elems sep ≠ "" := by
  match elems with
  | [] => exact absurd rfl hne
  | first :: rest =>
    have key : ∀ (l : List String) (acc : String),
        acc.length ≤ (l.foldl (fun acc s => acc ++ sep ++ s) acc).length := by
      intro l
      induction l with
      | nil => intro acc; simp
      | cons x xs ih =>
        intro acc
        refine le_trans ?_ (ih (acc ++ sep ++ x))
        rw [String.length_append, String.length_append]
        omega
    intro h
    have h1 : first.length ≠ 0 := fun h0 =>
      hhead first (by simp) (string_eq_empty_of_length h0)
    have h2 := key rest first
    rw [stringsJoin] at h
    rw [h] at h2
    have h3 : ("" : String).length = 0 := rfl
    omega

/-! Section: Claim C6: CPU-affinity range formatting -/

/-- Claim C6: The range formatter scans set bits in ascending order
(`collectCpus` is sorted and contains exactly the set bits below
`numCPUs`), merges each maximal run of consecutive integers into an
`"a-b"` range (singletons stay `"a"`), and joins the ranges with commas;
a failed mask query, an empty mask, or a mask with no collected set bit
yields `"unknown"`, and the result is never the empty string.  In
particular set bits `{0,1,2,5,7,8}` format as `"0-2,5,7-8"`. -/
theorem getCpuAffinityString_range_formatting :
    (∀ numCPUs, getCpuAffinityString none numCPUs = "unknown")
    ∧ (∀ mask numCPUs, collectCpus mask numCPUs = [] →
        getCpuAffinityString (some mask) numCPUs = "unknown")
    ∧ (∀ maskRes numCPUs, getCpuAffinityString maskRes numCPUs ≠ "")
    ∧ (∀ mask numCPUs, (collectCpus mask numCPUs).Pairwise (· < ·))
    ∧ (∀ mask numCPUs c, c ∈ collectCpus mask numCPUs ↔
        ∃ idx word bit, mask.get? idx = some word ∧ bit < uintSize ∧ word.testBit bit ∧
          idx * uintSize + bit < numCPUs ∧ c = idx * uintSize + bit)
    ∧ (∀ mask numCPUs c rest, collectCpus mask numCPUs = c :: rest →
        getCpuAffinityString (some mask) numCPUs =
          stringsJoin ((runsFrom c c rest).map fun r => formatRange r.1 r.2) ",")
    ∧ (∀ c rest, List.Chain (· < ·) c rest →
        joinRuns (runsFrom c c rest) = c :: rest
        ∧ List.Chain' (fun r1 r2 : Nat × Nat => r1.2 + 2 ≤ r2.1) (runsFrom c c rest)
        ∧ ∀ r ∈ runsFrom c c rest, r.1 ≤ r.2)
    ∧ collectCpus [423] 64 = [0, 1, 2, 5, 7, 8]
    ∧ getCpuAffinityString (some [423]) 64 = "0-2,5,7-8" := by
  have hempty : ∀ mask numCPUs, collectCpus mask numCPUs = [] →
      getCpuAffinityString (some mask) numCPUs = "unknown" := by
    intro mask k h
    simp only [getCpuAffinityString]
    split_ifs with hlen
    · rfl
    · rw [h]
  have hform : ∀ mask numCPUs c rest, collectCpus mask numCPUs = c :: rest →
      getCpuAffinityString (some mask) numCPUs =
        stringsJoin ((runsFrom c c rest).map fun r => formatRange r.1 r.2) "," := by
    intro mask k c rest h
    have hmask : mask.length ≠ 0 := by
      intro h0
      rw [List.length_eq_zero.1 h0] at h
      exact List.cons_ne_nil c rest (by simpa [collectCpus] using h.symm)
    simp only [getCpuAffinityString, if_neg hmask]
    rw [h]
    show stringsJoin (mergeRanges rest c c []) "," = _
    rw [mergeRanges_eq_runsFrom, List.nil_append]
  refine ⟨fun _ => rfl, hempty, ?_, collectCpus_sorted, mem_collectCpus, hform, ?_,
    by decide, by decide⟩
  · intro maskRes k
    match maskRes with
    | none =>
      show ("unknown" : String) ≠ ""
      decide
    | some mask =>
      cases hcpus : collectCpus mask k with
      | nil => rw [hempty mask k hcpus]; decide
      | cons c rest =>
        rw [hform mask k c rest hcpus]
        refine stringsJoin_ne_empty _ _ ?_ ?_
        · obtain ⟨e, rs, hr⟩ := runsFrom_head rest c c
          rw [hr]
          simp
        · intro x hx
          rw [List.mem_map] at hx
          obtain ⟨r, _, rfl⟩ := hx
          exact formatRange_ne_empty r.1 r.2
  · intro c rest hch
    exact ⟨by simpa using joinRuns_runsFrom rest c c le_rfl hch,
      runsFrom_gaps rest c c le_rfl hch,
      runsFrom_le rest c c le_rfl hch⟩

/-- Witness for C6: the "empty" and "formatting" parts applied to
concrete masks (mask word 0: no set bits; mask word 423: set bits
`{0,1,2,5,7,8}`). -/
theorem getCpuAffinityString_range_formatting_witness :
    getCpuAffinityString (some [0]) 64 = "unknown"
    ∧ getCpuAffinityString (some [423]) 64 =
        stringsJoin ((runsFrom 0 0 [1, 2, 5, 7, 8]).map fun r => formatRange r.1 r.2) "," :=
  ⟨getCpuAffinityString_range_formatting.2.1 [0] 64 (by decide),
    getCpuAffinityString_range_formatting.2.2.2.2.2.1 [423] 64 0 [1, 2, 5, 7, 8] (by decide)⟩

theorem foldl_buildStep_eq (ks : List NvlinkFieldKey) :
    ∀ vs ix, ks.foldl buildStep (vs, ix) =
      (vs ++ ks.map requestOfKey, ix ++ (ks.enumFrom vs.length).map fun p => (p.2, p.1)) := by
  induction ks with
  | nil => intro vs ix; simp
  | cons k ks ih =>
    intro vs ix
    rw [List.foldl_cons]
    show ks.foldl buildStep (vs ++ [requestOfKey k], ix ++ [(k, vs.length)]) = _
    rw [ih]
    rw [List.enumFrom_cons]
    simp [List.append_assoc]

theorem buildDeviceWideNvLinkRequests_eq (linkState : Nat → Nat × Nat) :
    buildDeviceWideNvLinkRequests linkState =
      ((activeKeys linkState).map requestOfKey,
        ((activeKeys linkState).enum).map fun p => (p.2, p.1)) := by
  have hstep : ∀ (acc : List FieldValue × List (NvlinkFieldKey × Nat)) link,
      (if ¬ (linkState link).2 = NVML_SUCCESS ∨ ¬ (linkState link).1 = FEATURE_ENABLED then acc
        else
          let acc1 :=
            ((nvlinkErrorFieldIds.map fun f => NvlinkFieldKey.mk f link).foldl buildStep acc)
          let acc2 :=
            ((nvlinkBerFieldIds.map fun f => NvlinkFieldKey.mk f link).foldl buildStep acc1)
          (nvlinkFecFieldIds.map fun f => NvlinkFieldKey.mk f link).foldl buildStep acc2) =
      (if linkEnabled linkState link then keysOfLink link else []).foldl buildStep acc := by
    intro acc link
    by_cases h : linkEnabled linkState link
    · rw [if_pos h]
      rw [linkEnabled, Bool.and_eq_true, decide_eq_true_eq, decide_eq_true_eq] at h
      rw [if_neg (by tauto)]
      show _ = (keysOfLink link).foldl buildStep acc
      rw [keysOfLink]
      show _ = ((nvlinkErrorFieldIds ++ nvlinkBerFieldIds ++ nvlinkFecFieldIds).map
        fun f => NvlinkFieldKey.mk f link).foldl buildStep acc
      rw [List.map_append, List.map_append, List.foldl_append, List.foldl_append]
    · rw [if_neg h]
      rw [linkEnabled, Bool.and_eq_true, decide_eq_true_eq, decide_eq_true_eq] at h
      rw [if_pos (by tauto)]
      rfl
  have houter : ∀ (l : List Nat) (acc : List FieldValue × List (NvlinkFieldKey × Nat)),
      l.foldl
        (fun acc link =>
          if ¬ (linkState link).2 = NVML_SUCCESS ∨ ¬ (linkState link).1 = FEATURE_ENABLED then acc
          else
            let acc1 :=
              ((nvlinkErrorFieldIds.map fun f => NvlinkFieldKey.mk f link).foldl buildStep acc)
            let acc2 :=
              ((nvlinkBerFieldIds.map fun f => NvlinkFieldKey.mk f link).foldl buildStep acc1)
            (nvlinkFecFieldIds.map fun f => NvlinkFieldKey.mk f link).foldl buildStep acc2)
        acc =
      ((l.filter (linkEnabled linkState)).flatMap keysOfLink).foldl buildStep acc := by
    intro l
    induction l with
    | nil => intro acc; rfl
    | cons x xs ih =>
      intro acc
      rw [List.foldl_cons, hstep acc x, List.filter_cons]
      by_cases h : linkEnabled linkState x
      · rw [if_pos h, if_pos h, ih, List.flatMap_cons, List.foldl_append]
      · rw [if_neg h, if_neg (by simpa using h), ih]
        rfl
  rw [buildDeviceWideNvLinkRequests, houter]
  rw [show ((List.range NVLINK_MAX_LINKS).filter (linkEnabled linkState)).flatMap keysOfLink =
    activeKeys linkState from rfl]
  rw [foldl_buildStep_eq]
  simp [List.enum]

theorem sum_map_const_nat {α : Type} (l : List α) (c : Nat) :
    (l.map fun _ => c).sum = l.length * c := by
  induction l with
  | nil => simp
  | cons x xs ih =>
    rw [List.map_cons, List.sum_cons, ih, List.length_cons, Nat.succ_mul]
    omega

theorem activeKeys_length (linkState : Nat → Nat × Nat) :
    (activeKeys linkState).length = (activeLinks linkState).length * allNvlinkFieldIds.length := by
  rw [activeKeys, List.length_flatMap]
  have h : (activeLinks linkState).map (List.length ∘ keysOfLink) =
      (activeLinks linkState).map fun _ => allNvlinkFieldIds.length := by
    refine List.map_congr_left fun x _ => ?_
    simp [keysOfLink]
  rw [h, sum_map_const_nat]

theorem activeKeys_nodup (linkState : Nat → Nat × Nat) :
    (activeKeys linkState).Nodup := by
  rw [activeKeys, List.nodup_flatMap]
  constructor
  · intro x _
    rw [keysOfLink]
    refine List.Nodup.map ?_ (by decide)
    intro a b hab
    exact congrArg NvlinkFieldKey.fieldId hab
  · refine List.Pairwise.imp ?_ ((List.nodup_range NVLINK_MAX_LINKS).filter _)
    intro a b hab
    rw [Function.onFun, List.disjoint_left]
    intro k hka hkb
    rw [keysOfLink, List.mem_map] at hka hkb
    obtain ⟨fa, _, rfl⟩ := hka
    obtain ⟨fb, _, hfk⟩ := hkb
    exact hab (congrArg NvlinkFieldKey.link hfk).symm

theorem lookup_mem_of_mem {α β : Type} [BEq α] [LawfulBEq α] {l : List (α × β)} {a : α} {b : β}
    (h : List.lookup a l = some b) : (a, b) ∈ l := by
  induction l with
  | nil => simp at h
  | cons x xs ih =>
    rw [List.lookup_cons] at h
    cases hab : a == x.1 with
    | false =>
      rw [hab] at h
      exact List.mem_cons_of_mem _ (ih h)
    | true =>
      rw [hab] at h
      simp only at h
      obtain rfl : x.2 = b := by simpa using h
      have ha : a = x.1 := by simpa using hab
      subst ha
      exact List.mem_cons.2 (Or.inl (by cases x; rfl))

theorem lookup_isSome_of_mem_keys {α β : Type} [BEq α] [LawfulBEq α] {l : List (α × β)} {a : α}
    (h : a ∈ l.map Prod.fst) : ∃ b, List.lookup a l = some b := by
  induction l with
  | nil => simp at h
  | cons x xs ih =>
    rw [List.map_cons, List.mem_cons] at h
    by_cases hx : a = x.1
    · refine ⟨x.2, ?_⟩
      rw [List.lookup_cons]
      have hb : (a == x.1) = true := by simpa using hx
      rw [hb]
    · obtain ⟨b, hb⟩ := ih (h.resolve_left hx)
      refine ⟨b, ?_⟩
      rw [List.lookup_cons]
      have hb2 : (a == x.1) = false := by simpa using hx
      rw [hb2, hb]

/-! Section: Claim C3: completeness of the per-link request batch and index -/

/-- Claim C3: For every device with `N` active links and the `M = 26`
field descriptors (error, BER and FEC groups together), the builder
produces exactly `N*M` requests and an index with exactly `N*M` keys —
the `(fieldId, link)` pairs of the active links, without duplicates —
the recorded positions being exactly `0, …, N*M-1`; every key resolves
through the index to a position holding the request with that field id
and scope; no request is built for an inactive link; and with zero
active links the produced sequence is empty and the caller skips the
device without issuing a batched query. -/
theorem linkFieldIndex_complete (linkState : Nat → Nat × Nat) :
    allNvlinkFieldIds.length = 26
    ∧ (buildDeviceWideNvLinkRequests linkState).1.length =
        (activeLinks linkState).length * allNvlinkFieldIds.length
    ∧ (buildDeviceWideNvLinkRequests linkState).2.length =
        (activeLinks linkState).length * allNvlinkFieldIds.length
    ∧ (buildDeviceWideNvLinkRequests linkState).2.map Prod.fst = activeKeys linkState
    ∧ (buildDeviceWideNvLinkRequests linkState).2.map Prod.snd =
        List.range (buildDeviceWideNvLinkRequests linkState).1.length
    ∧ (activeKeys linkState).Nodup
    ∧ (∀ k ∈ activeKeys linkState, ∃ i,
        List.lookup k (buildDeviceWideNvLinkRequests linkState).2 = some i ∧
          (buildDeviceWideNvLinkRequests linkState).1.get? i = some (requestOfKey k))
    ∧ (∀ fv ∈ (buildDeviceWideNvLinkRequests linkState).1,
        linkEnabled linkState fv.scopeId = true)
    ∧ (activeLinks linkState = [] → (buildDeviceWideNvLinkRequests linkState).1 = [])
    ∧ (∀ d : NvDevice, (buildDeviceWideNvLinkRequests d.linkState).1 = [] →
        nvlinkIssuedQuery d = none) := by
  rw [buildDeviceWideNvLinkRequests_eq]
  refine ⟨by decide, ?_, ?_, ?_, ?_, activeKeys_nodup linkState, ?_, ?_, ?_, ?_⟩
  · rw [List.length_map, activeKeys_length]
  · rw [List.length_map, List.enum_length, activeKeys_length]
  · rw [List.map_map]
    exact List.enum_map_snd _
  · rw [List.map_map, List.length_map]
    exact List.enum_map_fst _
  · intro k hk
    have hkeys : ((((activeKeys linkState).enum).map fun p => (p.2, p.1)).map Prod.fst) =
        activeKeys linkState := by
      rw [List.map_map]
      exact List.enum_map_snd _
    obtain ⟨i, hi⟩ := lookup_isSome_of_mem_keys (l := ((activeKeys linkState).enum).map
      fun p => (p.2, p.1)) (a := k) (by rw [hkeys]; exact hk)
    refine ⟨i, hi, ?_⟩
    have hmem := lookup_mem_of_mem hi
    rw [List.mem_map] at hmem
    obtain ⟨p, hp, hpk⟩ := hmem
    have hpk2 : p.2 = k := congrArg Prod.fst hpk
    have hpi : p.1 = i := congrArg Prod.snd hpk
    obtain ⟨pi, pk⟩ := p
    simp only at hpk2 hpi
    have hget : (activeKeys linkState).get? pi = some pk := List.mk_mem_enum_iff_get?.1 hp
    rw [List.get?_map, ← hpi, hget, hpk2]
    rfl
  · intro fv hfv
    rw [List.mem_map] at hfv
    obtain ⟨k, hk, rfl⟩ := hfv
    rw [activeKeys, List.mem_flatMap] at hk
    obtain ⟨link, hlink, hkl⟩ := hk
    rw [keysOfLink, List.mem_map] at hkl
    obtain ⟨f, _, rfl⟩ := hkl
    rw [activeLinks, List.mem_filter] at hlink
    exact hlink.2
  · intro h
    rw [activeKeys, h]
    rfl
  · intro d h
    rw [nvlinkIssuedQuery]
    split_ifs with h1 h2
    · rfl
    · rfl
    · show (if (buildDeviceWideNvLinkRequests d.linkState).1.length = 0 then none
        else some (buildDeviceWideNvLinkRequests d.linkState).1) = none
      rw [h]
      rfl

/-- Witness for C3: the theorem applied to a device whose links 0 and 2
are active, with the lookup part instantiated at the key
`(fieldId 220, link 2)`. -/
theorem linkFieldIndex_complete_witness :
    ∃ i, List.lookup ⟨220, 2⟩
        (buildDeviceWideNvLinkRequests fun link =>
          if link = 0 ∨ link = 2 then (1, 0) else (0, 3)).2 = some i ∧
      (buildDeviceWideNvLinkRequests fun link =>
          if link = 0 ∨ link = 2 then (1, 0) else (0, 3)).1.get? i =
        some (requestOfKey ⟨220, 2⟩) :=
  (linkFieldIndex_complete fun link => if link = 0 ∨ link = 2 then (1, 0) else (0, 3)).2.2.2.2.2.2.1
    ⟨220, 2⟩ (by decide)

theorem foldl_append_eq_flatMap {α β : Type} (f : α → List β) (l : List α) :
    ∀ registry, l.foldl (fun reg d => reg ++ f d) registry = registry ++ l.flatMap f := by
  induction l with
  | nil => intro r; simp
  | cons x xs ih =>
    intro r
    rw [List.foldl_cons, ih, List.flatMap_cons, List.append_assoc]

theorem flatMap_guard_eq_filter {α β : Type} (p : α → Bool) (F : α → List β) :
    ∀ l : List α, (l.flatMap fun x => if ¬ p x then [] else F x) = (l.filter p).flatMap F := by
  intro l
  induction l with
  | nil => rfl
  | cons x xs ih =>
    rw [List.flatMap_cons, List.filter_cons]
    by_cases h : p x
    · rw [if_neg (by simpa using h), if_pos h, List.flatMap_cons, ih]
    · rw [if_pos (by simpa using h), if_neg (by simpa using h), ih, List.nil_append]

theorem flatMap_congr_mem {α β : Type} {l : List α} {f g : α → List β}
    (h : ∀ a ∈ l, f a = g a) : l.flatMap f = l.flatMap g := by
  induction l with
  | nil => rfl
  | cons x xs ih =>
    rw [List.flatMap_cons, List.flatMap_cons, h x (by simp),
      ih fun a ha => h a (List.mem_cons_of_mem _ ha)]

theorem filterMap_congr_mem {α β : Type} {l : List α} {f g : α → Option β}
    (h : ∀ a ∈ l, f a = g a) : l.filterMap f = l.filterMap g := by
  induction l with
  | nil => rfl
  | cons x xs ih =>
    rw [List.filterMap_cons, List.filterMap_cons, h x (by simp),
      ih fun a ha => h a (List.mem_cons_of_mem _ ha)]

theorem nvlinkFieldSample_eq_clean (d : NvDevice)
    (decode : FieldValue → Except DecodeErr MetricValue) (link : Nat) (field : Nat × String)
    (hk : NvlinkFieldKey.mk field.1 link ∈ activeKeys d.linkState) :
    nvlinkFieldSample d.uuidRes.1 (pciBusIdToString d.pciRes.1)
      (getFieldValuesFill d (buildDeviceWideNvLinkRequests d.linkState).1)
      (buildDeviceWideNvLinkRequests d.linkState).2 decode link field =
      nvlinkFieldSampleClean d decode link field := by
  obtain ⟨i, hlook, hget⟩ :=
    (linkFieldIndex_complete d.linkState).2.2.2.2.2.2.1 ⟨field.1, link⟩ hk
  rw [nvlinkFieldSample, nvlinkFieldSampleClean]
  have hfv : (getFieldValuesFill d (buildDeviceWideNvLinkRequests d.linkState).1).getD
      (((buildDeviceWideNvLinkRequests d.linkState).2.lookup ⟨field.1, link⟩).getD 0) {} =
      d.fieldRes field.1 link := by
    rw [hlook]
    show (getFieldValuesFill d _).getD i {} = _
    have hgi : (getFieldValuesFill d (buildDeviceWideNvLinkRequests d.linkState).1).get? i =
        some (d.fieldRes field.1 link) := by
      rw [getFieldValuesFill, List.get?_map, hget]
      rfl
    rw [List.getD_eq_getElem?_getD, ← List.get?_eq_getElem?, hgi]
    rfl
  rw [hfv]

theorem mem_activeKeys_of (linkState : Nat → Nat × Nat) (fieldId link : Nat)
    (hlink : link ∈ activeLinks linkState) (hfid : fieldId ∈ allNvlinkFieldIds) :
    NvlinkFieldKey.mk fieldId link ∈ activeKeys linkState := by
  rw [activeKeys, List.mem_flatMap]
  exact ⟨link, hlink, by rw [keysOfLink, List.mem_map]; exact ⟨fieldId, hfid, rfl⟩⟩

theorem collectNVLinkErrorsDevice_clean (d : NvDevice)
    (h1 : d.uuidRes.2 = NVML_SUCCESS) (h2 : d.pciRes.2 = NVML_SUCCESS)
    (h3 : activeLinks d.linkState ≠ []) (h4 : d.fieldValuesRet = NVML_SUCCESS) :
    collectNVLinkErrorsDevice d =
      (activeLinks d.linkState).flatMap fun link =>
        nvlinkErrorFields.filterMap (nvlinkFieldSampleClean d nvlinkFloatDecode link) ++
        nvlinkBerFields.filterMap (nvlinkFieldSampleClean d nvlinkBerDecode link) ++
        nvlinkFecFields.filterMap (nvlinkFieldSampleClean d nvlinkFloatDecode link) := by
  have hlen : ¬ (buildDeviceWideNvLinkRequests d.linkState).1.length = 0 := by
    rw [(linkFieldIndex_complete d.linkState).2.1]
    have hne : (activeLinks d.linkState).length ≠ 0 :=
      fun h0 => h3 (List.length_eq_zero.1 h0)
    have h26 : allNvlinkFieldIds.length = 26 := by decide
    rw [h26]
    omega
  rw [collectNVLinkErrorsDevice, if_neg (by simp [h1]), if_neg (by simp [h2]),
    if_neg hlen, if_neg (by simp [h4]), flatMap_guard_eq_filter]
  refine flatMap_congr_mem fun link hlink => ?_
  have hcongr : ∀ (fields : List (Nat × String))
      (decode : FieldValue → Except DecodeErr MetricValue),
      (∀ f ∈ fields, f.1 ∈ allNvlinkFieldIds) →
      fields.filterMap
        (nvlinkFieldSample d.uuidRes.1 (pciBusIdToString d.pciRes.1)
          (getFieldValuesFill d (buildDeviceWideNvLinkRequests d.linkState).1)
          (buildDeviceWideNvLinkRequests d.linkState).2 decode link) =
      fields.filterMap (nvlinkFieldSampleClean d decode link) := by
    intro fields decode hfields
    refine filterMap_congr_mem fun f hf => ?_
    exact nvlinkFieldSample_eq_clean d decode link f
      (mem_activeKeys_of d.linkState f.1 link hlink (hfields f hf))
  rw [hcongr nvlinkErrorFields nvlinkFloatDecode (by decide),
    hcongr nvlinkBerFields nvlinkBerDecode (by decide),
    hcongr nvlinkFecFields nvlinkFloatDecode (by decide)]

/-! Section: Claim C9: failure isolation in the periodic collectors -/

/-- Claim C9: In every periodic collection pass, each collector processes
the device list element-wise (the registry after a pass is the previous
registry plus each device's samples in order, so every remaining device
is still processed whatever any one device does); a failing UUID / PCI /
fabric-info / batched-query call skips exactly that device's samples; a
good device's NVLink samples are, field by field, a function of only
that field's result, and a field whose per-request status is not
success contributes no sample; and a tick runs both collect functions
regardless of any per-device failures. -/
theorem collectors_isolate_failures :
    (∀ devices registry, collectFabricHealth devices registry =
        registry ++ devices.flatMap collectFabricHealthDevice)
    ∧ (∀ devices registry, collectNVLinkErrors devices registry =
        registry ++ devices.flatMap collectNVLinkErrorsDevice)
    ∧ (∀ devices registry, collectorsTick devices registry =
        registry ++ devices.flatMap collectFabricHealthDevice ++
          devices.flatMap collectNVLinkErrorsDevice)
    ∧ (∀ xs d ys registry, collectFabricHealth (xs ++ d :: ys) registry =
        registry ++ xs.flatMap collectFabricHealthDevice ++ collectFabricHealthDevice d ++
          ys.flatMap collectFabricHealthDevice)
    ∧ (∀ xs d ys registry, collectNVLinkErrors (xs ++ d :: ys) registry =
        registry ++ xs.flatMap collectNVLinkErrorsDevice ++ collectNVLinkErrorsDevice d ++
          ys.flatMap collectNVLinkErrorsDevice)
    ∧ (∀ d : NvDevice, d.uuidRes.2 ≠ NVML_SUCCESS →
        collectFabricHealthDevice d = [] ∧ collectNVLinkErrorsDevice d = [])
    ∧ (∀ d : NvDevice, d.pciRes.2 ≠ NVML_SUCCESS →
        collectFabricHealthDevice d = [] ∧ collectNVLinkErrorsDevice d = [])
    ∧ (∀ d : NvDevice, d.fabricInfoRes.2 ≠ NVML_SUCCESS → collectFabricHealthDevice d = [])
    ∧ (∀ d : NvDevice, d.fieldValuesRet ≠ NVML_SUCCESS → collectNVLinkErrorsDevice d = [])
    ∧ (∀ d : NvDevice, d.uuidRes.2 = NVML_SUCCESS → d.pciRes.2 = NVML_SUCCESS →
        activeLinks d.linkState ≠ [] → d.fieldValuesRet = NVML_SUCCESS →
        collectNVLinkErrorsDevice d =
          (activeLinks d.linkState).flatMap fun link =>
            nvlinkErrorFields.filterMap (nvlinkFieldSampleClean d nvlinkFloatDecode link) ++
            nvlinkBerFields.filterMap (nvlinkFieldSampleClean d nvlinkBerDecode link) ++
            nvlinkFecFields.filterMap (nvlinkFieldSampleClean d nvlinkFloatDecode link))
    ∧ (∀ (d : NvDevice) (decode : FieldValue → Except DecodeErr MetricValue)
        (link : Nat) (field : Nat × String),
        (d.fieldRes field.1 link).nvmlReturn ≠ NVML_SUCCESS →
        nvlinkFieldSampleClean d decode link field = none) := by
  have hfab : ∀ devices registry, collectFabricHealth devices registry =
      registry ++ devices.flatMap collectFabricHealthDevice :=
    fun devices registry => foldl_append_eq_flatMap _ devices registry
  have hnvl : ∀ devices registry, collectNVLinkErrors devices registry =
      registry ++ devices.flatMap collectNVLinkErrorsDevice :=
    fun devices registry => foldl_append_eq_flatMap _ devices registry
  refine ⟨hfab, hnvl, ?_, ?_, ?_, ?_, ?_, ?_, ?_, collectNVLinkErrorsDevice_clean, ?_⟩
  · intro devices registry
    rw [collectorsTick, hfab, hnvl, List.append_assoc]
  · intro xs d ys registry
    rw [hfab, List.flatMap_append, List.flatMap_cons, List.append_assoc, List.append_assoc]
  · intro xs d ys registry
    rw [hnvl, List.flatMap_append, List.flatMap_cons, List.append_assoc, List.append_assoc]
  · intro d h
    exact ⟨by rw [collectFabricHealthDevice, if_pos h],
      by rw [collectNVLinkErrorsDevice, if_pos h]⟩
  · intro d h
    exact ⟨by simp [collectFabricHealthDevice, h], by simp [collectNVLinkErrorsDevice, h]⟩
  · intro d h
    simp [collectFabricHealthDevice, h]
  · intro d h
    simp [collectNVLinkErrorsDevice, h]
  · intro d decode link field h
    rw [nvlinkFieldSampleClean, if_pos h]

/-- Witness for C9: a pass over a two-device list where the first
device fails every query and the second fails only its fabric-info
query: the first contributes nothing, the second is still processed. -/
theorem collectors_isolate_failures_witness :
    collectFabricHealthDevice
        ⟨("bad", 1), (fun _ => 0, 1), fun _ => (0, 3), 1, fun _ _ => {}, (⟨0, fun _ => 0, 0, 0, 0⟩, 1)⟩ = []
    ∧ collectNVLinkErrorsDevice
        ⟨("bad", 1), (fun _ => 0, 1), fun _ => (0, 3), 1, fun _ _ => {}, (⟨0, fun _ => 0, 0, 0, 0⟩, 1)⟩ = []
    ∧ collectFabricHealthDevice
        ⟨("ok", 0), (fun _ => 48, 0), fun _ => (0, 3), 0, fun _ _ => {}, (⟨0, fun _ => 0, 0, 0, 0⟩, 1)⟩ = []
    ∧ collectFabricHealth
        [⟨("bad", 1), (fun _ => 0, 1), fun _ => (0, 3), 1, fun _ _ => {}, (⟨0, fun _ => 0, 0, 0, 0⟩, 1)⟩]
        [] = [] := by
  refine ⟨?_, ?_, ?_, ?_⟩
  · exact (collectors_isolate_failures.2.2.2.2.2.1 _ (by decide)).1
  · exact (collectors_isolate_failures.2.2.2.2.2.1 _ (by decide)).2
  · exact collectors_isolate_failures.2.2.2.2.2.2.2.1 _ (by decide)
  · rw [collectors_isolate_failures.1]
    rw [List.flatMap_cons]
    rw [(collectors_isolate_failures.2.2.2.2.2.1 _ (by decide)).1]
    rfl

theorem foldl_inv {α σ : Type} (P : σ → Prop) (step : σ → α → σ) (l : List α)
    (h : ∀ s, P s → ∀ a ∈ l, P (step s a)) : ∀ s, P s → P (l.foldl step s) := by
  induction l with
  | nil => intro s hs; exact hs
  | cons x xs ih =>
    intro s hs
    rw [List.foldl_cons]
    exact ih (fun s hs a ha => h s hs a (List.mem_cons_of_mem _ ha)) _
      (h s hs x (by simp))

theorem getTopologyLabel_inv (anc : Nat → Nat → Option Nat) (n : Nat) (st : TopoState)
    (a b : Nat) (ha : a < n) (hb : b < n) (hinv : TopoInv n st) :
    TopoInv n (getTopologyLabel anc st a b).2 := by
  by_cases hab : a = b
  · simp only [getTopologyLabel, if_pos hab]
    exact hinv
  · obtain ⟨hnodup, hbound, hkeys⟩ := hinv
    cases hlook : st.cache.lookup (min a b, max a b) with
    | some val =>
      simp only [getTopologyLabel, if_neg hab, hlook]
      exact ⟨hnodup, hbound, hkeys⟩
    | none =>
      have hnotmem : (min a b, max a b) ∉ st.queries := by
        rw [← hkeys]
        intro hmem
        obtain ⟨v, hv⟩ := lookup_isSome_of_mem_keys hmem
        rw [hv] at hlook
        cases hlook
      simp only [getTopologyLabel, if_neg hab, hlook]
      refine ⟨?_, ?_, ?_⟩
      · rw [List.nodup_append]
        exact ⟨hnodup, List.nodup_singleton _, by
          intro x hx hx1
          rw [List.mem_singleton] at hx1
          exact hnotmem (hx1 ▸ hx)⟩
      · intro k hk
        rw [List.mem_append] at hk
        rcases hk with hk | hk
        · exact hbound k hk
        · rw [List.mem_singleton] at hk
          subst hk
          constructor
          · rcases Nat.lt_or_ge a b with h | h
            · simp only [Nat.min_eq_left h.le, Nat.max_eq_right h.le]
              exact h
            · have h2 : b < a := lt_of_le_of_ne h fun e => hab e.symm
              simp only [Nat.min_eq_right h2.le, Nat.max_eq_left h2.le]
              exact h2
          · simp only [max_lt_iff]
            exact ⟨ha, hb⟩
      · rw [List.map_append, hkeys]
        rfl

theorem topoRow_inv (anc : Nat → Nat → Option Nat) (n i : Nat) (st : TopoState)
    (hi : i < n) (hinv : TopoInv n st) : TopoInv n (topoRow anc n i st).2 := by
  rw [topoRow]
  refine foldl_inv (P := fun acc : List String × TopoState => TopoInv n acc.2)
    (fun acc idx =>
      if n ≤ idx then (acc.1 ++ ["absent"], acc.2)
      else
        let r := getTopologyLabel anc acc.2 i idx
        (acc.1 ++ [r.1], r.2))
    (List.range 4) ?_ ([], st) hinv
  intro s hs idx _
  by_cases h : n ≤ idx
  · simp only [if_pos h]
    exact hs
  · simp only [if_neg h]
    exact getTopologyLabel_inv anc n s.2 i idx hi (by omega) hs

theorem collectGpuTopologyInfo_inv (n : Nat) (gpuInfoOk : Nat → Bool)
    (anc : Nat → Nat → Option Nat) :
    TopoInv n (collectGpuTopologyInfo n gpuInfoOk anc).2.1 := by
  rw [collectGpuTopologyInfo]
  refine foldl_inv
    (P := fun acc : List (List String) × TopoState × Bool => TopoInv n acc.2.1) _
    (List.range n) ?_ _ ⟨by simp, by simp, rfl⟩
  intro s hs i hi
  by_cases h1 : s.2.2 = false
  · rw [if_pos h1]
    exact hs
  · rw [if_neg h1]
    by_cases h2 : gpuInfoOk i = false
    · rw [if_pos h2]
      exact hs
    · rw [if_neg h2]
      exact topoRow_inv anc n i s.2.1 (List.mem_range.1 hi) hs

theorem mem_pairsBelow (n : Nat) (p : Nat × Nat) :
    p ∈ pairsBelow n ↔ p.1 < p.2 ∧ p.2 < n := by
  rw [pairsBelow, Finset.mem_biUnion]
  constructor
  · rintro ⟨b, hb, hp⟩
    rw [Finset.mem_image] at hp
    obtain ⟨a, ha, rfl⟩ := hp
    exact ⟨by simpa using Finset.mem_range.1 ha, by simpa using Finset.mem_range.1 hb⟩
  · rintro ⟨h1, h2⟩
    exact ⟨p.2, Finset.mem_range.2 h2,
      Finset.mem_image.2 ⟨p.1, Finset.mem_range.2 h1, by rfl⟩⟩

theorem card_pairsBelow (n : Nat) : (pairsBelow n).card * 2 = n * (n - 1) := by
  rw [pairsBelow, Finset.card_biUnion]
  · have h : ∀ b ∈ Finset.range n, ((Finset.range b).image fun a => (a, b)).card = b := by
      intro b _
      rw [Finset.card_image_of_injective _ fun a1 a2 h => congrArg Prod.fst h,
        Finset.card_range]
    rw [Finset.sum_congr rfl h]
    exact Finset.sum_range_id_mul_two n
  · intro x _ y _ hxy
    rw [Finset.disjoint_left]
    intro p hp1 hp2
    rw [Finset.mem_image] at hp1 hp2
    obtain ⟨a1, _, rfl⟩ := hp1
    obtain ⟨a2, _, hk⟩ := hp2
    exact hxy (congrArg Prod.snd hk).symm

/-! Section: Claim C5: the topology builder queries each unordered pair at
most once -/

/-- Claim C5: Building the GPU topology matrix invokes the
common-ancestor-distance capability at most once per unordered pair
`{i, j}` with `i ≠ j` (the query log is duplicate-free, recorded by the
`(min, max)` cache key with both components below the device count), so
at most `n*(n-1)/2` times in total and at most `C(4,2) = 6` times for a
4-device set; a cached pair is never re-queried regardless of how often
the `(i, j)` and `(j, i)` labels are requested, and a self pair is never
queried at all. -/
theorem topologyCache_query_bound (n : Nat) (gpuInfoOk : Nat → Bool)
    (anc : Nat → Nat → Option Nat) :
    (collectGpuTopologyInfo n gpuInfoOk anc).2.1.queries.Nodup
    ∧ (∀ k ∈ (collectGpuTopologyInfo n gpuInfoOk anc).2.1.queries, k.1 < k.2 ∧ k.2 < n)
    ∧ (collectGpuTopologyInfo n gpuInfoOk anc).2.1.queries.length ≤ n * (n - 1) / 2
    ∧ (n = 4 → (collectGpuTopologyInfo n gpuInfoOk anc).2.1.queries.length ≤ 6)
    ∧ (∀ (st : TopoState) (a b : Nat), a ≠ b →
        (min a b, max a b) ∈ st.cache.map Prod.fst →
        (getTopologyLabel anc st a b).2.queries = st.queries)
    ∧ (∀ (st : TopoState) (a : Nat), (getTopologyLabel anc st a a).2.queries = st.queries) := by
  obtain ⟨hnodup, hbound, hkeys⟩ := collectGpuTopologyInfo_inv n gpuInfoOk anc
  have hlen : (collectGpuTopologyInfo n gpuInfoOk anc).2.1.queries.length ≤ n * (n - 1) / 2 := by
    have hsub : (collectGpuTopologyInfo n gpuInfoOk anc).2.1.queries.toFinset ⊆ pairsBelow n := by
      intro p hp
      rw [List.mem_toFinset] at hp
      exact (mem_pairsBelow n p).2 (hbound p hp)
    have hcard := Finset.card_le_card hsub
    rw [List.toFinset_card_of_nodup hnodup] at hcard
    have h2 := card_pairsBelow n
    omega
  refine ⟨hnodup, hbound, hlen, ?_, ?_, ?_⟩
  · intro h4
    subst h4
    simpa using hlen
  · intro st a b hab hmem
    obtain ⟨v, hv⟩ := lookup_isSome_of_mem_keys hmem
    simp only [getTopologyLabel, if_neg hab, hv]
  · intro st a
    simp [getTopologyLabel]

/-- Witness for C5: the bound instantiated for a 4-device set with all
ancestor queries answered `TOPOLOGY_SYSTEM`, and the cached-pair part
at a concrete one-entry cache queried in the reversed order. -/
theorem topologyCache_query_bound_witness :
    (collectGpuTopologyInfo 4 (fun _ => true) fun _ _ => some 50).2.1.queries.length ≤ 6
    ∧ (getTopologyLabel (fun _ _ => some 50) ⟨[((1, 2), "SYS")], [(1, 2)]⟩ 2 1).2.queries =
        [(1, 2)] :=
  ⟨(topologyCache_query_bound 4 (fun _ => true) fun _ _ => some 50).2.2.2.1 rfl,
    (topologyCache_query_bound 4 (fun _ => true) fun _ _ => some 50).2.2.2.2.1
      ⟨[((1, 2), "SYS")], [(1, 2)]⟩ 2 1 (by decide) (by decide)⟩

end NvgpuExporter
